import Mathlib

/-!
Verification development for the IADS network module
(`src/game/theater/iadsnetwork/iadsnetwork.py`).

The Python module is shallowly embedded: each method becomes a pure Lean
function over explicit state.  Python dicts that preserve insertion order
become association lists, `uuid.uuid4()` becomes a fresh-counter draw
threaded through the network state, and the event bus becomes an
accumulated list of events.  Exceptions (`IadsNetworkException`,
`IndexError` from `units[0]` on an empty list) become `Except` values.
-/

set_option linter.unusedVariables false

/-- List update at an index (identity when the index is out of range);
models in-place mutation of one element of a Python list. -/
def updateAt {α : Type} : List α → Nat → (α → α) → List α
  | [], _, _ => []
  | x :: xs, 0, f => f x :: xs
  | x :: xs, n + 1, f => x :: updateAt xs n f

/-- Lookup in an insertion-ordered association list (Python dict read). -/
def dictLookup {β : Type} (l : List (String × β)) (k : String) : Option β :=
  (l.find? (fun p => decide (p.1 = k))).map (fun p => p.2)

/-- Write `d[k] = v` on an insertion-ordered association list: overwrite in
place when the key exists, append otherwise (Python dict semantics). -/
def dictInsert {β : Type} (l : List (String × β)) (k : String) (v : β) : List (String × β) :=
  if (l.find? (fun p => decide (p.1 = k))).isSome then
    l.map (fun p => if p.1 = k then (k, v) else p)
  else
    l ++ [(k, v)]

/-- IADS role of a defense group or installation category.
Modelled from the spec: the Role Catalog ("role: one of early-warning radar,
command center, connection/comms node, power source, surface-to-air variants,
point-defense"); `game/theater/iadsnetwork/iadsrole.py` is not part of the
given sources. -/
inductive IadsRole where
  | ewr
  | samAsEwr
  | sam
  | commandCenter
  | connectionNode
  | powerSource
  | pointDefense
  | noBehavior
deriving DecidableEq

/-- Modelled from the spec: role attribute `participates` ("may anchor a
node"; every IADS role other than the no-behavior role takes part in the
network). -/
def IadsRole.participate : IadsRole → Bool
  | .noBehavior => false
  | _ => true

/-- Modelled from the spec: role attribute `is_infrastructure` ("comms/power —
link-only"). -/
def IadsRole.is_comms_or_power : IadsRole → Bool
  | .connectionNode => true
  | .powerSource => true
  | _ => false

/-- Modelled from the spec: role attribute `connection_range` (meters); the
concrete figures are arbitrary, every theorem refers to them symbolically. -/
def IadsRole.connection_range : IadsRole → Nat
  | .connectionNode => 10000
  | .powerSource => 5000
  | _ => 0

/-- Modelled from the spec: the Role Catalog's "static lookup from
installation category to a role descriptor"; an installation category is
embedded directly as the role it maps to. -/
def IadsRole.for_category (c : IadsRole) : IadsRole := c

/-- A unit of a defense group: identity name, alive flag, static flag, and
the skynet property bag of its unit type (`none` models a unit type that is
absent or not a `GroundUnitType`). -/
structure SkyUnit where
  unit_name : String
  alive : Bool
  is_static : Bool
  unit_properties : Option (List (String × String))
deriving DecidableEq

/-- The attributes of a `TheaterGroundObject` that a stored defense group
reaches through its `ground_object` back reference. -/
structure GroundObjectData where
  original_name : String
  category : IadsRole
  position : Int
  side : Bool
  is_dead : Bool
deriving DecidableEq

/-- `TheaterGroundObject.is_friendly(to_player)`: whether the installation's
side matches the queried side. -/
def GroundObjectData.is_friendly (d : GroundObjectData) (p : Bool) : Bool :=
  d.side == p

/-- A defense group (`IadsGroundGroup`).  `is_iads` models Python's
`isinstance(group, IadsGroundGroup)` test on the members of
`TheaterGroundObject.groups`, which may also hold plain ground groups. -/
structure IadsGroundGroup where
  name : String
  group_name : String
  iads_role : IadsRole
  units : List SkyUnit
  ground_object : GroundObjectData
  is_iads : Bool
deriving DecidableEq

/-- `GroundGroup.alive_units`: number of alive units in the group. -/
def IadsGroundGroup.alive_units (g : IadsGroundGroup) : Nat :=
  (g.units.filter (fun u => u.alive)).length

/-- Which concrete `TheaterGroundObject` subclass an installation is
(`IadsGroundObject`, `NavalGroundObject`, `IadsBuildingGroundObject`, or any
other), as tested by `isinstance` in the range and basic initializers. -/
inductive GoKind where
  | iadsGround
  | naval
  | iadsBuilding
  | generic
deriving DecidableEq

/-- A `TheaterGroundObject`: stable identity name, category, planar position
(modelled one-dimensionally; only the distance's ordered comparison against
connection ranges is ever used), side, liveness, subclass kind and ordered
defense groups. -/
structure TheaterGroundObject where
  original_name : String
  category : IadsRole
  position : Int
  side : Bool
  is_dead : Bool
  kind : GoKind
  groups : List IadsGroundGroup
deriving DecidableEq

/-- The data of an installation seen through a `ground_object` back
reference. -/
def TheaterGroundObject.data (t : TheaterGroundObject) : GroundObjectData :=
  { original_name := t.original_name, category := t.category,
    position := t.position, side := t.side, is_dead := t.is_dead }

/-- `TheaterGroundObject.is_friendly(to_player)`. -/
def TheaterGroundObject.is_friendly (t : TheaterGroundObject) (p : Bool) : Bool :=
  t.side == p

/-- `position.distance_to_point(other)`: planar distance between two
positions (absolute difference in the one-dimensional model). -/
def distance_to_point (a b : Int) : Nat := (a - b).natAbs

/-- How evaluating a group's skynet data can fail: `indexError` models
Python's `IndexError` from an out-of-bounds `units[0]`, and
`iadsNetworkException` models the module's own `IadsNetworkException`. -/
inductive SkynetError where
  | indexError
  | iadsNetworkException (msg : String)
deriving DecidableEq

/-- `SkynetNode`: the projected snapshot of one network node for the skynet
LUA data table.  `connections` is the `defaultdict(list)` keyed by the
connected group's role. -/
structure SkynetNode where
  dcs_name : String
  player : Bool
  iads_role : IadsRole
  properties : List (String × String)
  connections : List (IadsRole × List String)
deriving DecidableEq

/-- Append one name under a role key of a `SkynetNode.connections`
`defaultdict(list)`. -/
def snAppendConn (conns : List (IadsRole × List String)) (role : IadsRole)
    (nm : String) : List (IadsRole × List String) :=
  if (conns.find? (fun p => decide (p.1 = role))).isSome then
    conns.map (fun p => if p.1 = role then (p.1, p.2 ++ [nm]) else p)
  else
    conns ++ [(role, [nm])]

/-- `SkynetNode.dcs_name_for_group`: for the EWR, command-center,
connection-node and power-source roles, the name of the first alive unit;
failing that, the first unit's name when it is a static placement, else an
`IadsNetworkException`; reading `units[0]` of an empty group raises
`IndexError`.  Every other role uses the group name. -/
def SkynetNode.dcs_name_for_group (group : IadsGroundGroup) : Except SkynetError String :=
  if group.iads_role = IadsRole.ewr ∨ group.iads_role = IadsRole.commandCenter ∨
      group.iads_role = IadsRole.connectionNode ∨ group.iads_role = IadsRole.powerSource then
    match group.units.find? (fun u => u.alive) with
    | some u => Except.ok u.unit_name
    | none =>
      match group.units with
      | [] => Except.error SkynetError.indexError
      | u0 :: _ =>
        if u0.is_static then Except.ok u0.unit_name
        else Except.error (SkynetError.iadsNetworkException
          (group.name ++ " has no skynet usable units"))
  else
    Except.ok group.group_name

/-- `SkynetNode.from_group`: build the snapshot node for a group; reads
`units[0].unit_type` unconditionally after deriving the name. -/
def SkynetNode.from_group (group : IadsGroundGroup) : Except SkynetError SkynetNode :=
  match SkynetNode.dcs_name_for_group group with
  | Except.error e => Except.error e
  | Except.ok nm =>
    match group.units with
    | [] => Except.error SkynetError.indexError
    | u0 :: _ =>
      Except.ok
        { dcs_name := nm
          player := group.ground_object.is_friendly true
          iads_role := group.iads_role
          properties := u0.unit_properties.getD []
          connections := [] }

/-- `IadsNetworkNode`: the live graph node, its primary defense group and a
keyed map of connections (dict key = generated connection id). -/
structure IadsNetworkNode where
  group : IadsGroundGroup
  connections : List (Nat × IadsGroundGroup)
deriving DecidableEq

/-- `IadsNetworkNode.add_connection_for_group`: insert one id → group entry;
the fresh id is drawn by the caller from the network's counter (modelling
`uuid.uuid4()`). -/
def IadsNetworkNode.add_connection_for_group (node : IadsNetworkNode) (cid : Nat)
    (group : IadsGroundGroup) : IadsNetworkNode :=
  { node with connections := node.connections ++ [(cid, group)] }

/-- `del node.connections[cID]`: remove the entry keyed by `cid`. -/
def IadsNetworkNode.delete_connection (node : IadsNetworkNode) (cid : Nat) : IadsNetworkNode :=
  { node with connections := node.connections.filter (fun c => decide (¬ c.1 = cid)) }

/-- A notification sent to the `GameUpdateEvents` sink: `updateIadsNode`
carries the updated node (identified by its primary group's name),
`deleteIadsConnection` carries the deleted connection id. -/
inductive GameUpdateEvent where
  | updateIadsNode (group_name : String)
  | deleteIadsConnection (cid : Nat)
deriving DecidableEq

/-- `IadsNetwork`: mode flag, installation registry (insertion-ordered
dict keyed by `original_name`), node list, config adjacency
(insertion-ordered `defaultdict(list)`), and the fresh-id counter that
models `uuid.uuid4()` draws. -/
structure IadsNetwork where
  advanced_iads : Bool
  ground_objects : List (String × TheaterGroundObject)
  nodes : List IadsNetworkNode
  iads_config : List (String × List String)
  nextId : Nat
deriving DecidableEq

/-- One element of the `iads_data` campaign configuration: a bare primary
name, or a table of primary name → secondary names (a YAML dict may hold
several items). -/
inductive IadsConfigEntry where
  | bare (nm : String)
  | table (items : List (String × List String))
deriving DecidableEq

/-- `IadsNetwork.__init__`: record the mode and parse the campaign
`iads_data` into the config adjacency. -/
def mkIadsNetwork (advanced : Bool) (iads_data : List IadsConfigEntry) : IadsNetwork :=
  { advanced_iads := advanced
    ground_objects := []
    nodes := []
    iads_config :=
      iads_data.foldl (fun cfg e =>
        match e with
        | IadsConfigEntry.bare nm => dictInsert cfg nm []
        | IadsConfigEntry.table items =>
          items.foldl (fun cfg p => dictInsert cfg p.1 p.2) cfg) []
    nextId := 0 }

/-- `IadsNetwork._is_friendly`: the node's primary installation and the given
installation are on the same side. -/
def IadsNetwork.is_friendly (node : IadsNetworkNode) (tgo : TheaterGroundObject) : Bool :=
  node.group.ground_object.is_friendly true == tgo.is_friendly true

/-- Draw a fresh connection id and add `group` as a connection of the node
at index `i` (`node.add_connection_for_group(group)` on a node aliased into
`self.nodes`). -/
def add_connection_at (net : IadsNetwork) (i : Nat) (group : IadsGroundGroup) : IadsNetwork :=
  { net with
    nodes := updateAt net.nodes i (fun n => n.add_connection_for_group net.nextId group)
    nextId := net.nextId + 1 }

/-- Body of the loop of `IadsNetworkNode.add_connection_for_tgo`: add the
group as a connection of node `i` when it is an IADS group whose role
participates. -/
def addGroupConnStep (i : Nat) (net : IadsNetwork) (group : IadsGroundGroup) : IadsNetwork :=
  if group.is_iads && group.iads_role.participate then
    add_connection_at net i group
  else net

/-- `IadsNetworkNode.add_connection_for_tgo` on the node at index `i`: add
every IADS group of the installation whose role participates. -/
def add_connection_for_tgo_at (net : IadsNetwork) (i : Nat)
    (tgo : TheaterGroundObject) : IadsNetwork :=
  tgo.groups.foldl (addGroupConnStep i) net

/-- `IadsNetwork.node_for_group`: index of the existing node with this
primary group, or of a freshly appended one. -/
def node_for_group (net : IadsNetwork) (group : IadsGroundGroup) : IadsNetwork × Nat :=
  match net.nodes.findIdx? (fun cn => decide (cn.group = group)) with
  | some i => (net, i)
  | none =>
    ({ net with nodes := net.nodes ++ [{ group := group, connections := [] }] },
      net.nodes.length)

/-- Body of the group scan of `IadsNetwork.node_for_tgo`: the first
participating IADS group with an alive unit anchors the node, each later
alive IADS point-defense group is attached to it. -/
def tgoGroupStep (acc : IadsNetwork × Option Nat) (group : IadsGroundGroup) :
    IadsNetwork × Option Nat :=
  if group.is_iads && decide (0 < group.alive_units) then
    match acc.2 with
    | none =>
      if group.iads_role.participate then
        let r := node_for_group acc.1 group
        (r.1, some r.2)
      else acc
    | some i =>
      if group.iads_role = IadsRole.pointDefense then
        (add_connection_at acc.1 i group, some i)
      else acc
  else acc

/-- `IadsNetwork.node_for_tgo`: index of the existing node anchored on the
installation; otherwise scan its groups in order — the first participating
IADS group with an alive unit anchors a new node, and each later alive IADS
point-defense group is attached as a connection of that node.  `none` when
no group anchors a node. -/
def node_for_tgo (net : IadsNetwork) (tgo : TheaterGroundObject) :
    IadsNetwork × Option Nat :=
  match net.nodes.findIdx?
      (fun cn => decide (cn.group.ground_object.original_name = tgo.original_name)) with
  | some i => (net, some i)
  | none => tgo.groups.foldl tgoGroupStep (net, none)

/-- Body of the loop of `IadsNetwork._make_advanced_connections_by_range`:
consider one registry installation as an infrastructure candidate for the
node at index `i` (whose installation data `tgoData` was bound before the
loop). -/
def rangeCandidateStep (net : IadsNetwork) (i : Nat) (tgoData : GroundObjectData)
    (nearby : TheaterGroundObject) : IadsNetwork :=
  let iads_role := IadsRole.for_category nearby.category
  if !iads_role.is_comms_or_power || decide (nearby.original_name = tgoData.original_name) then
    net
  else
    match net.nodes[i]? with
    | none => net
    | some node =>
      let dist := distance_to_point nearby.position tgoData.position
      let in_range := decide (dist ≤ iads_role.connection_range)
      if in_range && IadsNetwork.is_friendly node nearby then
        add_connection_for_tgo_at net i nearby
      else net

/-- `IadsNetwork._make_advanced_connections_by_range` for the node at index
`i`: link every comms/power registry installation within its role's range on
the node's side. -/
def make_advanced_connections_by_range (net : IadsNetwork) (i : Nat) : IadsNetwork :=
  match net.nodes[i]? with
  | none => net
  | some node =>
    let tgoData := node.group.ground_object
    net.ground_objects.foldl (fun net p => rangeCandidateStep net i tgoData p.2) net

/-- `IadsNetwork._add_connections_from_config` for the node at index `i`:
add the connections its installation's config entry lists; a secondary name
missing from the registry is logged and skipped.  Reading the config through
`defaultdict` inserts an empty entry when the primary name is absent. -/
def add_connections_from_config (net : IadsNetwork) (i : Nat) : IadsNetwork :=
  match net.nodes[i]? with
  | none => net
  | some node =>
    let primary_node := node.group.ground_object.original_name
    match dictLookup net.iads_config primary_node with
    | some connections =>
      connections.foldl (fun net secondary_node =>
        match dictLookup net.ground_objects secondary_node with
        | some go => add_connection_for_tgo_at net i go
        | none => net) net
    | none => { net with iads_config := net.iads_config ++ [(primary_node, [])] }

/-- Body of the node loop of `IadsNetwork._update_network`: link the changed
installation to the node at index `i` when it is strictly in range and on
the node's side, notifying the node. -/
def updateNetworkStep (tgo : TheaterGroundObject)
    (acc : IadsNetwork × List GameUpdateEvent) (i : Nat) :
    IadsNetwork × List GameUpdateEvent :=
  match acc.1.nodes[i]? with
  | none => acc
  | some node =>
    let dist := distance_to_point node.group.ground_object.position tgo.position
    let in_range := decide (dist < (IadsRole.for_category tgo.category).connection_range)
    if in_range && IadsNetwork.is_friendly node tgo then
      (add_connection_for_tgo_at acc.1 i tgo,
        acc.2 ++ [GameUpdateEvent.updateIadsNode node.group.group_name])
    else acc

/-- `IadsNetwork._update_network`: reactively connect the changed comms/power
installation to every node strictly within its range and on its side; a dead
installation originates no new links. -/
def update_network (net : IadsNetwork) (tgo : TheaterGroundObject) :
    IadsNetwork × List GameUpdateEvent :=
  if tgo.is_dead then (net, [])
  else
    let iads_role := IadsRole.for_category tgo.category
    if !iads_role.is_comms_or_power then (net, [])
    else
      (List.range net.nodes.length).foldl (updateNetworkStep tgo) (net, [])

/-- The per-connection body of the scan of
`IadsNetwork._update_iads_comms_and_power`: a connection to the changed
installation yields an update notification when the sides still match and a
deletion notification otherwise. -/
def commsConnEvent (node : IadsNetworkNode) (tgo : TheaterGroundObject)
    (evs : List GameUpdateEvent) (c : Nat × IadsGroundGroup) : List GameUpdateEvent :=
  if c.2.ground_object.original_name = tgo.original_name then
    if IadsNetwork.is_friendly node tgo then
      evs ++ [GameUpdateEvent.updateIadsNode node.group.group_name]
    else
      evs ++ [GameUpdateEvent.deleteIadsConnection c.1]
  else evs

/-- The per-node body of `IadsNetwork._update_iads_comms_and_power`: emit an
update or a deletion event for each connection to the changed installation,
then drop the connections collected for deletion. -/
def update_node_for_comms (node : IadsNetworkNode) (tgo : TheaterGroundObject) :
    IadsNetworkNode × List GameUpdateEvent :=
  let evs := node.connections.foldl (commsConnEvent node tgo) []
  let kept := node.connections.filter (fun c =>
    !(decide (c.2.ground_object.original_name = tgo.original_name)
      && !IadsNetwork.is_friendly node tgo))
  ({ node with connections := kept }, evs)

/-- The per-node body of the node loop of
`IadsNetwork._update_iads_comms_and_power`, accumulating the rebuilt node
list and the emitted events. -/
def commsScanStep (tgo : TheaterGroundObject)
    (acc : List IadsNetworkNode × List GameUpdateEvent) (node : IadsNetworkNode) :
    List IadsNetworkNode × List GameUpdateEvent :=
  let r := update_node_for_comms node tgo
  (acc.1 ++ [r.1], acc.2 ++ r.2)

/-- `IadsNetwork._update_iads_comms_and_power`: scan every node's connections
to the changed comms/power installation — keep them and notify the node when
the sides still match, delete them (with a deletion notification) when they
differ — then, in range mode, try to form new connections reactively. -/
def update_iads_comms_and_power (net : IadsNetwork) (tgo : TheaterGroundObject) :
    IadsNetwork × List GameUpdateEvent :=
  let scanned := net.nodes.foldl (commsScanStep tgo) ([], [])
  let net := { net with nodes := scanned.1 }
  if net.iads_config = [] then
    let r := update_network net tgo
    (r.1, scanned.2 ++ r.2)
  else
    (net, scanned.2)

/-- Python's `for cn in self.nodes: if <anchored on tgo>: self.nodes.remove(cn)`:
removing the element under the iterator makes the iterator skip the next
element (it is kept unexamined).  Returns the remaining nodes and the removed
ones in removal order. -/
def removeNodesScan (tgo : TheaterGroundObject) :
    List IadsNetworkNode → List IadsNetworkNode × List IadsNetworkNode
  | [] => ([], [])
  | [cn] =>
    if cn.group.ground_object.original_name = tgo.original_name then ([], [cn])
    else ([cn], [])
  | cn :: next :: rest =>
    if cn.group.ground_object.original_name = tgo.original_name then
      let r := removeNodesScan tgo rest
      (next :: r.1, cn :: r.2)
    else
      let r := removeNodesScan tgo (next :: rest)
      (cn :: r.1, r.2)

/-- Emit one deletion notification per connection id of a removed node. -/
def deleteEventsStep (evs : List GameUpdateEvent) (cn : IadsNetworkNode) :
    List GameUpdateEvent :=
  evs ++ cn.connections.map (fun c => GameUpdateEvent.deleteIadsConnection c.1)

/-- `IadsNetwork.update_tgo`: dispatch comms/power installations (in advanced
mode) to the infrastructure path; otherwise drop the installation's node
(emitting a deletion per connection id), recompute it, and when it still
participates notify and re-resolve its connections per mode. -/
def update_tgo (net : IadsNetwork) (tgo : TheaterGroundObject) :
    IadsNetwork × List GameUpdateEvent :=
  if net.advanced_iads && (IadsRole.for_category tgo.category).is_comms_or_power then
    update_iads_comms_and_power net tgo
  else
    let r := removeNodesScan tgo net.nodes
    let evs := r.2.foldl deleteEventsStep []
    let net := { net with nodes := r.1 }
    match node_for_tgo net tgo with
    | (net, none) => (net, evs)
    | (net, some i) =>
      match net.nodes[i]? with
      | none => (net, evs)
      | some node =>
        let evs := evs ++ [GameUpdateEvent.updateIadsNode node.group.group_name]
        if net.advanced_iads then
          if !net.iads_config.isEmpty then
            (add_connections_from_config net i, evs)
          else
            (make_advanced_connections_by_range net i, evs)
        else (net, evs)

/-- The per-installation body of `IadsNetwork.initialize_basic_iads`:
derive a node for `IadsGroundObject` installations only. -/
def basicIadsStep (net : IadsNetwork) (p : String × TheaterGroundObject) : IadsNetwork :=
  if p.2.kind = GoKind.iadsGround then (node_for_tgo net p.2).1 else net

/-- `IadsNetwork.initialize_basic_iads`: one node per participating
`IadsGroundObject` installation in the registry. -/
def initialize_basic_iads (net : IadsNetwork) : IadsNetwork :=
  net.ground_objects.foldl basicIadsStep net

/-- The per-primary body of `IadsNetwork.initialize_network_from_config`:
resolve the installation (log-and-skip when absent or not participating)
and add its configured connections. -/
def configInitStep (net : IadsNetwork) (primary_node : String) : IadsNetwork :=
  match dictLookup net.ground_objects primary_node with
  | some go =>
    match node_for_tgo net go with
    | (net, some i) => add_connections_from_config net i
    | (net, none) => net
  | none => net

/-- `IadsNetwork.initialize_network_from_config`: resolve each primary name
of the config. -/
def initialize_network_from_config (net : IadsNetwork) : IadsNetwork :=
  (net.iads_config.map (fun p => p.1)).foldl configInitStep net

/-- The per-installation body of
`IadsNetwork.initialize_network_from_range`: anchor a node on IADS ground,
naval, and command-center-building installations and resolve its
connections by range. -/
def rangeInitStep (net : IadsNetwork) (p : String × TheaterGroundObject) : IadsNetwork :=
  let go := p.2
  let is_iads_go := decide (go.kind = GoKind.iadsGround)
  let is_iads_sea := decide (go.kind = GoKind.naval)
  let is_iads_cc := decide (go.kind = GoKind.iadsBuilding)
    && decide (IadsRole.for_category go.category = IadsRole.commandCenter)
  if is_iads_go || is_iads_sea || is_iads_cc then
    match node_for_tgo net go with
    | (net, some i) => make_advanced_connections_by_range net i
    | (net, none) => net
  else net

/-- `IadsNetwork.initialize_network_from_range`: process every registry
installation. -/
def initialize_network_from_range (net : IadsNetwork) : IadsNetwork :=
  net.ground_objects.foldl rangeInitStep net

/-- The registry population and mode-dispatched construction phase of
`IadsNetwork.initialize_network` (everything before the basic fallback). -/
def initialize_network_phase (net : IadsNetwork)
    (gos : List TheaterGroundObject) : IadsNetwork :=
  let net := { net with
    ground_objects := gos.foldl
      (fun d (tgo : TheaterGroundObject) => dictInsert d tgo.original_name tgo)
      net.ground_objects }
  if net.advanced_iads then
    if !net.iads_config.isEmpty then initialize_network_from_config net
    else initialize_network_from_range net
  else net

/-- `IadsNetwork.initialize_network`: populate the registry, build in
advanced mode per config or range, and fall back to basic mode when no node
was produced. -/
def initialize_network (net : IadsNetwork) (gos : List TheaterGroundObject) : IadsNetwork :=
  let net := initialize_network_phase net gos
  if net.nodes.isEmpty then initialize_basic_iads net else net

/-- The connection loop of `IadsNetwork.skynet_nodes` for one snapshot node:
skip connections with no alive unit, and append the name of each remaining
connection that is friendly to the node and not culled under its role key. -/
def skynetConnLoop (cull : GroundObjectData → Bool) (sn : SkynetNode) :
    List (Nat × IadsGroundGroup) → Except SkynetError SkynetNode
  | [] => Except.ok sn
  | c :: rest =>
    let connection := c.2
    if !connection.units.any (fun u => u.alive) then
      skynetConnLoop cull sn rest
    else if connection.ground_object.is_friendly sn.player && !cull connection.ground_object then
      match SkynetNode.dcs_name_for_group connection with
      | Except.error e => Except.error e
      | Except.ok nm =>
        skynetConnLoop cull
          { sn with connections := snAppendConn sn.connections connection.iads_role nm } rest
    else
      skynetConnLoop cull sn rest

/-- The node loop of `IadsNetwork.skynet_nodes`: skip culled nodes and nodes
whose primary group has no alive unit, project the rest. -/
def skynetNodesLoop (cull : GroundObjectData → Bool) :
    List IadsNetworkNode → Except SkynetError (List SkynetNode)
  | [] => Except.ok []
  | node :: rest =>
    if cull node.group.ground_object then skynetNodesLoop cull rest
    else if !node.group.units.any (fun u => u.alive) then skynetNodesLoop cull rest
    else
      match SkynetNode.from_group node.group with
      | Except.error e => Except.error e
      | Except.ok sn =>
        match skynetConnLoop cull sn node.connections with
        | Except.error e => Except.error e
        | Except.ok sn =>
          match skynetNodesLoop cull rest with
          | Except.error e => Except.error e
          | Except.ok l => Except.ok (sn :: l)

/-- `IadsNetwork.skynet_nodes`: the filtered snapshot of the network for the
skynet plugin; `cull` is `game.iads_considerate_culling`. -/
def skynet_nodes (net : IadsNetwork) (cull : GroundObjectData → Bool) :
    Except SkynetError (List SkynetNode) :=
  skynetNodesLoop cull net.nodes

/-- Follows the spec's words (§4.5), as the refinement target for the
projection: the identity name of a projected group — for the name-bearing
roles the first currently-alive unit's name (total here because projection
only reaches groups with an alive unit), else the group's own name. -/
def projectionName (group : IadsGroundGroup) : String :=
  if group.iads_role = IadsRole.ewr ∨ group.iads_role = IadsRole.commandCenter ∨
      group.iads_role = IadsRole.connectionNode ∨ group.iads_role = IadsRole.powerSource then
    match group.units.find? (fun u => u.alive) with
    | some u => u.unit_name
    | none => ""
  else group.group_name

/-- Follows the spec's words (§4.5): the snapshot of a primary group before
its connections are attached — identity name, side, role, and the first
unit's role-specific property bag. -/
def projectionNode (group : IadsGroundGroup) : SkynetNode :=
  { dcs_name := projectionName group
    player := group.ground_object.is_friendly true
    iads_role := group.iads_role
    properties := ((group.units.head?).map (fun u => u.unit_properties.getD [])).getD []
    connections := [] }

/-- Follows the spec's words (§4.5): the grouped connection map a projected
node accumulates (starting from `init`) over the kept connections — those
with an alive unit, friendly to the node's side and not culled. -/
def projectionConnAcc (cull : GroundObjectData → Bool) (player : Bool)
    (init : List (IadsRole × List String)) (conns : List (Nat × IadsGroundGroup)) :
    List (IadsRole × List String) :=
  (conns.filter (fun c =>
      c.2.units.any (fun u => u.alive)
        && c.2.ground_object.is_friendly player
        && !cull c.2.ground_object)).foldl
    (fun a c => snAppendConn a c.2.iads_role (projectionName c.2)) init

/-- Follows the spec's words (§4.5), as the refinement target for
`skynet_nodes`: keep exactly the nodes that are not culled and whose primary
group has an alive unit; within a kept node keep exactly the connections
with an alive unit, friendly to the node's side and not culled, grouped
under their role tag. -/
def projection_spec (net : IadsNetwork) (cull : GroundObjectData → Bool) : List SkynetNode :=
  (net.nodes.filter (fun n =>
      !cull n.group.ground_object && n.group.units.any (fun u => u.alive))).map
    (fun n =>
      let base := projectionNode n.group
      { base with connections := projectionConnAcc cull base.player [] n.connections })

/-- Fixture: an alive non-static unit. -/
def exUnitAlive : SkyUnit :=
  { unit_name := "uA", alive := true, is_static := false, unit_properties := none }

/-- Fixture: a dead non-static unit. -/
def exUnitDead : SkyUnit :=
  { unit_name := "uD", alive := false, is_static := false, unit_properties := none }

/-- Fixture: installation data of an EWR site on the player's side. -/
def exDataA : GroundObjectData :=
  { original_name := "A", category := IadsRole.ewr, position := 0,
    side := true, is_dead := false }

/-- Fixture: the EWR defense group of installation `A`. -/
def exGroupA : IadsGroundGroup :=
  { name := "A", group_name := "A-grp", iads_role := IadsRole.ewr,
    units := [exUnitAlive], ground_object := exDataA, is_iads := true }

/-- Fixture: a point-defense group of installation `A`. -/
def exGroupB : IadsGroundGroup :=
  { name := "APD", group_name := "APD-grp", iads_role := IadsRole.pointDefense,
    units := [exUnitAlive], ground_object := exDataA, is_iads := true }

/-- Fixture: an EWR group with an empty unit list. -/
def exEmptyEwrGroup : IadsGroundGroup :=
  { name := "E", group_name := "E-grp", iads_role := IadsRole.ewr,
    units := [], ground_object := exDataA, is_iads := true }

/-- Fixture: an EWR group whose only unit is dead and not static. -/
def exGroupDeadEwr : IadsGroundGroup :=
  { name := "W", group_name := "W-grp", iads_role := IadsRole.ewr,
    units := [exUnitDead], ground_object := exDataA, is_iads := true }

/-- The id → group entries the `node_for_tgo` scan attaches for the
point-defense groups among a suffix of the scanned group list, ids drawn
consecutively from `startId`. -/
def pdConnections (startId : Nat) : List IadsGroundGroup → List (Nat × IadsGroundGroup)
  | [] => []
  | g :: rest =>
    if g.is_iads && decide (0 < g.alive_units)
        && decide (g.iads_role = IadsRole.pointDefense) then
      (startId, g) :: pdConnections (startId + 1) rest
    else
      pdConnections startId rest

/-- Fixture: installation data of a SAM site `S` on the player's side. -/
def exDataS : GroundObjectData :=
  { original_name := "S", category := IadsRole.sam, position := 0,
    side := true, is_dead := false }

/-- Fixture: the SAM defense group of installation `S`. -/
def exGroupSam : IadsGroundGroup :=
  { name := "S", group_name := "S-grp", iads_role := IadsRole.sam,
    units := [exUnitAlive], ground_object := exDataS, is_iads := true }

/-- Fixture: an alive point-defense group of installation `S`. -/
def exGroupPd : IadsGroundGroup :=
  { name := "SPD", group_name := "SPD-grp", iads_role := IadsRole.pointDefense,
    units := [exUnitAlive], ground_object := exDataS, is_iads := true }

/-- Fixture: a point-defense group of installation `S` with only dead units. -/
def exGroupPdDead : IadsGroundGroup :=
  { name := "SPD", group_name := "SPD-grp", iads_role := IadsRole.pointDefense,
    units := [exUnitDead], ground_object := exDataS, is_iads := true }

/-- Fixture: installation `S` with a SAM group and an alive point defense. -/
def exTgoSamPd : TheaterGroundObject :=
  { original_name := "S", category := IadsRole.sam, position := 0, side := true,
    is_dead := false, kind := GoKind.iadsGround, groups := [exGroupSam, exGroupPd] }

/-- Fixture: installation `S` with a SAM group and a dead point defense. -/
def exTgoSamPdDead : TheaterGroundObject :=
  { original_name := "S", category := IadsRole.sam, position := 0, side := true,
    is_dead := false, kind := GoKind.iadsGround, groups := [exGroupSam, exGroupPdDead] }

/-- Fixture: a freshly constructed basic-mode network with no nodes. -/
def exNetEmpty : IadsNetwork := mkIadsNetwork false []

/-- The IADS groups of an installation whose role participates — exactly the
connections `add_connection_for_tgo` contributes. -/
def participatingGroups (tgo : TheaterGroundObject) : List IadsGroundGroup :=
  tgo.groups.filter (fun g => g.is_iads && g.iads_role.participate)

/-- Fixture: the live node anchored on installation `A`'s EWR group. -/
def exNodeA : IadsNetworkNode := { group := exGroupA, connections := [] }

/-- Fixture: a network holding only `A`'s node. -/
def exNetOneNode : IadsNetwork :=
  { advanced_iads := true, ground_objects := [], nodes := [exNodeA],
    iads_config := [], nextId := 0 }

/-- Fixture: installation data of power station `B` exactly at `A`'s
power-source connection range. -/
def exDataPB : GroundObjectData :=
  { original_name := "B", category := IadsRole.powerSource, position := 5000,
    side := true, is_dead := false }

/-- Fixture: the power-source group of installation `B`. -/
def exGroupPower : IadsGroundGroup :=
  { name := "B", group_name := "B-grp", iads_role := IadsRole.powerSource,
    units := [exUnitAlive], ground_object := exDataPB, is_iads := true }

/-- Fixture: power station `B` whose distance to `A` equals the range. -/
def exTgoPowerBoundary : TheaterGroundObject :=
  { original_name := "B", category := IadsRole.powerSource, position := 5000,
    side := true, is_dead := false, kind := GoKind.iadsBuilding,
    groups := [exGroupPower] }

/-- Fixture: the same power station, destroyed. -/
def exTgoPowerDead : TheaterGroundObject := { exTgoPowerBoundary with is_dead := true }

/-- Fixture: `A`'s node holding connection id 0 to `B`'s power group. -/
def exNodeConn : IadsNetworkNode :=
  { group := exGroupA, connections := [(0, exGroupPower)] }

/-- Fixture: an advanced range-mode network with `A`'s node connected to
`B`. -/
def exNetConn : IadsNetwork :=
  { advanced_iads := true, ground_objects := [], nodes := [exNodeConn],
    iads_config := [], nextId := 1 }

/-- Fixture: power station `B` captured by the opposing side. -/
def exTgoPowerCaptured : TheaterGroundObject := { exTgoPowerBoundary with side := false }

/-- Fixture: `S`'s node holding a point-defense connection with id 5. -/
def exNodeSamWithPd : IadsNetworkNode :=
  { group := exGroupSam, connections := [(5, exGroupPd)] }

/-- Fixture: a basic-mode network holding `S`'s node. -/
def exNetC4 : IadsNetwork :=
  { advanced_iads := false, ground_objects := [], nodes := [exNodeSamWithPd],
    iads_config := [], nextId := 6 }

/-- The anchor names of the network's nodes, one per node in order. -/
def nodeNames (net : IadsNetwork) : List String :=
  net.nodes.map (fun n => n.group.ground_object.original_name)

/-- The primary groups of the network's nodes, in order. -/
def nodeGroups (net : IadsNetwork) : List IadsGroundGroup :=
  net.nodes.map (fun n => n.group)

/-- Well-formedness of an installation: each of its groups points back to
the installation's own data. -/
def TgoWf (tgo : TheaterGroundObject) : Prop :=
  ∀ g ∈ tgo.groups, g.ground_object = tgo.data

/-- Well-formedness of the registry: values are well-formed installations
keyed by their identity name. -/
def RegistryWf (net : IadsNetwork) : Prop :=
  ∀ p ∈ net.ground_objects, TgoWf p.2 ∧ p.1 = p.2.original_name

/-- The registry-population step of `initialize_network`, named for the
invariant development. -/
def regExtendFold (gos : List TheaterGroundObject)
    (d : List (String × TheaterGroundObject)) : List (String × TheaterGroundObject) :=
  gos.foldl (fun d (tgo : TheaterGroundObject) => dictInsert d tgo.original_name tgo) d

/-- The registry after the population step, one record update. -/
def regExtend (net : IadsNetwork) (gos : List TheaterGroundObject) : IadsNetwork :=
  { net with ground_objects := regExtendFold gos net.ground_objects }

/-- The mode dispatch of `initialize_network` after the registry is
populated: config-driven or range-driven in advanced mode, nothing in basic
mode. -/
def initDispatch (net : IadsNetwork) : IadsNetwork :=
  if net.advanced_iads then
    if !net.iads_config.isEmpty then initialize_network_from_config net
    else initialize_network_from_range net
  else net

/-- One operation of the network's public mutating interface. -/
inductive NetStep where
  | init (gos : List TheaterGroundObject)
  | update (tgo : TheaterGroundObject)

/-- Execute one public operation on the network (events discarded). -/
def runStep (net : IadsNetwork) : NetStep → IadsNetwork
  | NetStep.init gos => initialize_network net gos
  | NetStep.update tgo => (update_tgo net tgo).1

/-- Execute a sequence of public operations. -/
def runSteps (net : IadsNetwork) (steps : List NetStep) : IadsNetwork :=
  steps.foldl runStep net

/-- Well-formed inputs of an operation: every installation passed in has
groups pointing back to its own data. -/
def StepWf : NetStep → Prop
  | NetStep.init gos => ∀ tgo ∈ gos, TgoWf tgo
  | NetStep.update tgo => TgoWf tgo

/-- Fixture: installation `A` with a single alive EWR group. -/
def exTgoA : TheaterGroundObject :=
  { original_name := "A", category := IadsRole.ewr, position := 0, side := true,
    is_dead := false, kind := GoKind.iadsGround, groups := [exGroupA] }

theorem updateAt_length {α : Type} (l : List α) (i : Nat) (f : α → α) :
    (updateAt l i f).length = l.length := by
  induction l generalizing i with
  | nil => rfl
  | cons x xs ih => cases i <;> simp [updateAt, ih]

theorem updateAt_getElem? {α : Type} (l : List α) (i j : Nat) (f : α → α) :
    (updateAt l i f)[j]? = if i = j then l[j]?.map f else l[j]? := by
  induction l generalizing i j with
  | nil => simp [updateAt]
  | cons x xs ih =>
    cases i with
    | zero => cases j <;> simp [updateAt]
    | succ i =>
      cases j with
      | zero => simp [updateAt]
      | succ j => simpa [updateAt, Nat.succ_inj] using ih i j

theorem updateAt_updateAt {α : Type} (l : List α) (i : Nat) (f g : α → α) :
    updateAt (updateAt l i f) i g = updateAt l i (fun x => g (f x)) := by
  induction l generalizing i with
  | nil => rfl
  | cons x xs ih => cases i <;> simp [updateAt, ih]

theorem map_updateAt_congr {α β : Type} (l : List α) (i : Nat) (f : α → α) (h : α → β)
    (hf : ∀ x, h (f x) = h x) :
    (updateAt l i f).map h = l.map h := by
  induction l generalizing i with
  | nil => rfl
  | cons x xs ih => cases i <;> simp [updateAt, ih, hf]

/-- C9: adding a connection for a group and deleting the new entry by its id
restores the node's connection map, provided the drawn id is not already a
key (Python draws a fresh `uuid4`, so "up to id reuse"). -/
theorem connection_roundtrip (node : IadsNetworkNode) (cid : Nat) (group : IadsGroundGroup)
    (h : ∀ c ∈ node.connections, c.1 ≠ cid) :
    (node.add_connection_for_group cid group).delete_connection cid = node := by
  cases node with
  | mk g conns =>
    simp only [IadsNetworkNode.add_connection_for_group, IadsNetworkNode.delete_connection,
      List.filter_append]
    have h1 : List.filter (fun c => decide (¬ c.1 = cid)) conns = conns := by
      apply List.filter_eq_self.mpr
      intro c hc
      simpa using h c hc
    rw [h1]
    simp

/-- Witness for C9 at a concrete node, id and group. -/
theorem connection_roundtrip_witness :
    (({ group := exGroupA, connections := [(0, exGroupB)] } : IadsNetworkNode).add_connection_for_group
        5 exGroupB).delete_connection 5
      = { group := exGroupA, connections := [(0, exGroupB)] } :=
  connection_roundtrip { group := exGroupA, connections := [(0, exGroupB)] } 5 exGroupB
    (by decide)

/-- C10: identity-name derivation is only total on groups with at least one
unit — with an empty unit list a name-bearing role hits the out-of-bounds
first-unit read (`IndexError`), not the module's own exception, and
projecting any group (`from_group`) also reads the first unit and fails the
same way. -/
theorem empty_group_index_error (group : IadsGroundGroup) (h : group.units = []) :
    ((group.iads_role = IadsRole.ewr ∨ group.iads_role = IadsRole.commandCenter ∨
        group.iads_role = IadsRole.connectionNode ∨ group.iads_role = IadsRole.powerSource) →
      SkynetNode.dcs_name_for_group group = Except.error SkynetError.indexError) ∧
    SkynetNode.from_group group = Except.error SkynetError.indexError := by
  constructor
  · intro hrole
    simp [SkynetNode.dcs_name_for_group, hrole, h]
  · by_cases hrole : group.iads_role = IadsRole.ewr ∨ group.iads_role = IadsRole.commandCenter ∨
        group.iads_role = IadsRole.connectionNode ∨ group.iads_role = IadsRole.powerSource
    · simp [SkynetNode.from_group, SkynetNode.dcs_name_for_group, hrole, h]
    · simp [SkynetNode.from_group, SkynetNode.dcs_name_for_group, hrole, h]

/-- Witness for C10: projecting the concrete empty EWR group raises the
index error. -/
theorem empty_group_index_error_witness :
    SkynetNode.from_group exEmptyEwrGroup = Except.error SkynetError.indexError :=
  (empty_group_index_error exEmptyEwrGroup rfl).2

/-- C7 (amended: for groups with at least one unit): identity-name
derivation — for the name-bearing roles the first alive unit's name, else
the first unit's name when it is static, else the domain-specific
`IadsNetworkException`; for every other role the group's own name. -/
theorem dcs_name_derivation (group : IadsGroundGroup) (hne : group.units ≠ []) :
    ((group.iads_role = IadsRole.ewr ∨ group.iads_role = IadsRole.commandCenter ∨
        group.iads_role = IadsRole.connectionNode ∨ group.iads_role = IadsRole.powerSource) →
      (∀ u, group.units.find? (fun u => u.alive) = some u →
        SkynetNode.dcs_name_for_group group = Except.ok u.unit_name) ∧
      (group.units.find? (fun u => u.alive) = none →
        ∀ u0, group.units.head? = some u0 →
          (u0.is_static = true →
            SkynetNode.dcs_name_for_group group = Except.ok u0.unit_name) ∧
          (u0.is_static = false →
            SkynetNode.dcs_name_for_group group =
              Except.error (SkynetError.iadsNetworkException
                (group.name ++ " has no skynet usable units"))))) ∧
    (¬ (group.iads_role = IadsRole.ewr ∨ group.iads_role = IadsRole.commandCenter ∨
        group.iads_role = IadsRole.connectionNode ∨ group.iads_role = IadsRole.powerSource) →
      SkynetNode.dcs_name_for_group group = Except.ok group.group_name) := by
  refine ⟨fun hrole => ⟨?_, ?_⟩, fun hrole => ?_⟩
  · intro u hu
    simp [SkynetNode.dcs_name_for_group, hrole, hu]
  · intro hnone u0 hu0
    cases hu : group.units with
    | nil => exact absurd hu hne
    | cons a rest =>
      rw [hu] at hu0
      simp only [List.head?_cons, Option.some.injEq] at hu0
      subst hu0
      rw [hu] at hnone
      constructor <;> intro hs <;>
        simp [SkynetNode.dcs_name_for_group, hrole, hu, hnone, hs]
  · simp [SkynetNode.dcs_name_for_group, hrole]

/-- Counterexample for C7 as stated: for a name-bearing role with an empty
unit list neither naming condition holds, yet the result is the
out-of-bounds index error, not the domain-specific exception the claim
requires. -/
theorem dcs_name_derivation_cex :
    SkynetNode.dcs_name_for_group exEmptyEwrGroup = Except.error SkynetError.indexError ∧
    ∀ msg, SkynetNode.dcs_name_for_group exEmptyEwrGroup ≠
      Except.error (SkynetError.iadsNetworkException msg) := by
  refine ⟨rfl, fun msg h => ?_⟩
  have h2 : (Except.error SkynetError.indexError : Except SkynetError String) =
      Except.error (SkynetError.iadsNetworkException msg) :=
    Eq.trans (by rfl) h
  simp at h2

/-- Witness for C7 at a concrete one-unit group: the dead non-static unit
yields the domain-specific exception. -/
theorem dcs_name_derivation_witness :
    SkynetNode.dcs_name_for_group exGroupDeadEwr
      = Except.error (SkynetError.iadsNetworkException "W has no skynet usable units") :=
  (((dcs_name_derivation exGroupDeadEwr (by decide)).1 (Or.inl rfl)).2 rfl exUnitDead rfl).2 rfl

theorem updateAt_eq_self {α : Type} (l : List α) (i : Nat) (f : α → α)
    (hf : ∀ x, f x = x) : updateAt l i f = l := by
  induction l generalizing i with
  | nil => rfl
  | cons x xs ih => cases i <;> simp [updateAt, hf, ih]

theorem updateAt_append_length {α : Type} (l : List α) (x : α) (f : α → α) :
    updateAt (l ++ [x]) l.length f = l ++ [f x] := by
  induction l with
  | nil => rfl
  | cons y ys ih => simp [updateAt, ih]

theorem pdConnections_length (l : List IadsGroundGroup) (s t : Nat) :
    (pdConnections s l).length = (pdConnections t l).length := by
  induction l generalizing s t with
  | nil => rfl
  | cons g rest ih =>
    by_cases hc : (g.is_iads && decide (0 < g.alive_units)
        && decide (g.iads_role = IadsRole.pointDefense)) = true
    · simp [pdConnections, hc, ih (s + 1) (t + 1)]
    · simp [pdConnections, hc, ih s t]

/-- Once the scan of `node_for_tgo` has anchored the node at index `i`, the
remaining groups only attach its alive IADS point-defense groups, with
consecutively drawn ids. -/
theorem foldl_tgoGroupStep_some (post : List IadsGroundGroup) (net : IadsNetwork) (i : Nat) :
    post.foldl tgoGroupStep (net, some i) =
      ({ net with
          nodes := updateAt net.nodes i (fun n =>
            { n with connections := n.connections ++ pdConnections net.nextId post }),
          nextId := net.nextId + (pdConnections net.nextId post).length },
        some i) := by
  induction post generalizing net with
  | nil =>
    simp only [List.foldl_nil, pdConnections, List.append_nil, List.length_nil, Nat.add_zero]
    rw [updateAt_eq_self]
    · intro x; rfl
  | cons g rest ih =>
    rw [List.foldl_cons]
    by_cases h1 : (g.is_iads && decide (0 < g.alive_units)) = true
    · by_cases h2 : g.iads_role = IadsRole.pointDefense
      · have hstep : tgoGroupStep (net, some i) g = (add_connection_at net i g, some i) := by
          unfold tgoGroupStep
          rw [if_pos h1]
          simp [h2]
        rw [hstep, ih]
        have h1' : g.is_iads = true ∧ 0 < g.alive_units := by simpa using h1
        have hc : (g.is_iads && decide (0 < g.alive_units)
            && decide (g.iads_role = IadsRole.pointDefense)) = true := by
          simp [h1'.1, h1'.2, h2]
        simp only [add_connection_at, updateAt_updateAt]
        refine congrArg (fun x => (x, some i)) ?_
        have hconn : pdConnections net.nextId (g :: rest) =
            (net.nextId, g) :: pdConnections (net.nextId + 1) rest := by
          simp [pdConnections, hc]
        rw [hconn]
        congr 1
        · refine congrArg (updateAt net.nodes i) ?_
          funext n
          simp [IadsNetworkNode.add_connection_for_group]
        · simp [Nat.add_assoc, Nat.add_comm 1]
      · have hstep : tgoGroupStep (net, some i) g = (net, some i) := by
          unfold tgoGroupStep
          rw [if_pos h1]
          simp [h2]
        have hconn : pdConnections net.nextId (g :: rest) =
            pdConnections net.nextId rest := by
          simp [pdConnections, h2]
        rw [hstep, ih, hconn]
    · have hstep : tgoGroupStep (net, some i) g = (net, some i) := by
        unfold tgoGroupStep
        rw [if_neg h1]
      have hconn : pdConnections net.nextId (g :: rest) =
          pdConnections net.nextId rest := by
        have hc : (g.is_iads && decide (0 < g.alive_units)
            && decide (g.iads_role = IadsRole.pointDefense)) = false := by
          rw [Bool.and_eq_false_iff]
          exact Or.inl (by simpa using h1)
        simp [pdConnections, hc]
      rw [hstep, ih, hconn]

/-- Groups that are not alive participating IADS groups leave the
not-yet-anchored scan state untouched. -/
theorem foldl_tgoGroupStep_none (l : List IadsGroundGroup) (net : IadsNetwork)
    (h : ∀ g ∈ l, ¬(g.is_iads = true ∧ 0 < g.alive_units ∧ g.iads_role.participate = true)) :
    l.foldl tgoGroupStep (net, none) = (net, none) := by
  induction l with
  | nil => rfl
  | cons g rest ih =>
    have hg := h g (List.mem_cons_self g rest)
    have hstep : tgoGroupStep (net, none) g = (net, none) := by
      unfold tgoGroupStep
      by_cases h1 : (g.is_iads && decide (0 < g.alive_units)) = true
      · rw [if_pos h1]
        have h1' : g.is_iads = true ∧ 0 < g.alive_units := by simpa using h1
        have hp : ¬ g.iads_role.participate = true := fun hp => hg ⟨h1'.1, h1'.2, hp⟩
        simp [hp]
      · rw [if_neg h1]
    rw [List.foldl_cons, hstep]
    exact ih (fun g' hg' => h g' (List.mem_cons_of_mem g hg'))

theorem findIdx?_eq_none {α : Type} (p : α → Bool) (l : List α)
    (h : ∀ x ∈ l, p x = false) : l.findIdx? p = none := by
  induction l with
  | nil => rfl
  | cons x xs ih =>
    rw [List.findIdx?_cons]
    rw [h x (List.mem_cons_self x xs)]
    simpa using ih (fun y hy => h y (List.mem_cons_of_mem x hy))

/-- When no node is anchored on the installation and the first alive
participating IADS group is `g` (after the failing prefix `pre`),
`node_for_tgo` appends one node with primary group `g` and exactly the alive
IADS point-defense groups of the suffix as connections. -/
theorem node_for_tgo_creates (net : IadsNetwork) (tgo : TheaterGroundObject)
    (pre post : List IadsGroundGroup) (g : IadsGroundGroup)
    (hsplit : tgo.groups = pre ++ g :: post)
    (hpre : ∀ g' ∈ pre, ¬(g'.is_iads = true ∧ 0 < g'.alive_units ∧ g'.iads_role.participate = true))
    (hi : g.is_iads = true) (ha : 0 < g.alive_units) (hp : g.iads_role.participate = true)
    (hnone : net.nodes.findIdx? (fun cn =>
      decide (cn.group.ground_object.original_name = tgo.original_name)) = none)
    (hfresh : ∀ cn ∈ net.nodes, cn.group ≠ g) :
    node_for_tgo net tgo =
      ({ net with
          nodes := net.nodes ++
            [{ group := g, connections := pdConnections net.nextId post }],
          nextId := net.nextId + (pdConnections net.nextId post).length },
        some net.nodes.length) := by
  unfold node_for_tgo
  rw [hnone, hsplit, List.foldl_append, foldl_tgoGroupStep_none pre net hpre, List.foldl_cons]
  have hfind : net.nodes.findIdx? (fun cn => decide (cn.group = g)) = none :=
    findIdx?_eq_none _ _ (fun cn hcn => by simpa using hfresh cn hcn)
  have hstep : tgoGroupStep (net, none) g =
      ({ net with nodes := net.nodes ++ [{ group := g, connections := [] }] },
        some net.nodes.length) := by
    unfold tgoGroupStep node_for_group
    simp [hi, ha, hp, hfind]
  rw [hstep, foldl_tgoGroupStep_some]
  refine congrArg (fun x => (x, some net.nodes.length)) ?_
  simp only [updateAt_append_length, List.nil_append]

/-- When no node is anchored on the installation and no IADS group with an
alive unit participates, `node_for_tgo` returns no node and leaves the
network unchanged. -/
theorem node_for_tgo_no_participant (net : IadsNetwork) (tgo : TheaterGroundObject)
    (hnone : net.nodes.findIdx? (fun cn =>
      decide (cn.group.ground_object.original_name = tgo.original_name)) = none)
    (h : ∀ g ∈ tgo.groups,
      ¬(g.is_iads = true ∧ 0 < g.alive_units ∧ g.iads_role.participate = true)) :
    node_for_tgo net tgo = (net, none) := by
  unfold node_for_tgo
  rw [hnone]
  exact foldl_tgoGroupStep_none tgo.groups net h

/-- C6 (amended: a later point-defense group is attached only when it is an
IADS group with at least one living unit): deriving a node for an
installation with no existing node scans its groups in order, anchors the
node on the first participating IADS group with a living unit, attaches
exactly the later alive IADS point-defense groups as connections, and
returns "no node", leaving the network unchanged, when no group
participates. -/
theorem node_derivation (net : IadsNetwork) (tgo : TheaterGroundObject)
    (hnone : net.nodes.findIdx? (fun cn =>
      decide (cn.group.ground_object.original_name = tgo.original_name)) = none) :
    (∀ pre g post, tgo.groups = pre ++ g :: post →
      (∀ g' ∈ pre,
        ¬(g'.is_iads = true ∧ 0 < g'.alive_units ∧ g'.iads_role.participate = true)) →
      g.is_iads = true → 0 < g.alive_units → g.iads_role.participate = true →
      (∀ cn ∈ net.nodes, cn.group ≠ g) →
      node_for_tgo net tgo =
        ({ net with
            nodes := net.nodes ++
              [{ group := g, connections := pdConnections net.nextId post }],
            nextId := net.nextId + (pdConnections net.nextId post).length },
          some net.nodes.length)) ∧
    ((∀ g ∈ tgo.groups,
        ¬(g.is_iads = true ∧ 0 < g.alive_units ∧ g.iads_role.participate = true)) →
      node_for_tgo net tgo = (net, none)) :=
  ⟨fun pre g post hsplit hpre hi ha hp hfresh =>
    node_for_tgo_creates net tgo pre post g hsplit hpre hi ha hp hnone hfresh,
  fun h => node_for_tgo_no_participant net tgo hnone h⟩

/-- Witness for C6: deriving a node for `S` (SAM group then alive point
defense) on the empty network yields one node anchored on the SAM group with
the point defense attached under id 0. -/
theorem node_derivation_witness :
    node_for_tgo exNetEmpty exTgoSamPd =
      ({ exNetEmpty with
          nodes := [{ group := exGroupSam, connections := [(0, exGroupPd)] }],
          nextId := 1 },
        some 0) := by
  have h := (node_derivation exNetEmpty exTgoSamPd rfl).1 [] exGroupSam [exGroupPd] rfl
    (by simp) rfl (by decide) rfl (by intro cn hcn; simp [exNetEmpty, mkIadsNetwork] at hcn)
  exact h.trans (by decide)

/-- Counterexample for C6 as stated: installation `S` has a later
point-defense group, all of whose units are dead; the claim as written
attaches it as a connection, but the derived node has no connections. -/
theorem node_derivation_cex :
    node_for_tgo exNetEmpty exTgoSamPdDead =
      ({ exNetEmpty with
          nodes := [{ group := exGroupSam, connections := [] }], nextId := 0 },
        some 0) := by decide

theorem addGroupConnStep_foldl_at (gs : List IadsGroundGroup) (net : IadsNetwork) (i : Nat) :
    ((gs.foldl (addGroupConnStep i) net).nodes[i]?).map (fun n => n.connections.map Prod.snd)
      = (net.nodes[i]?).map (fun n => n.connections.map Prod.snd ++
          (gs.filter (fun g => g.is_iads && g.iads_role.participate)).map id) := by
  induction gs generalizing net with
  | nil =>
    cases h : net.nodes[i]? <;> simp [h]
  | cons g rest ih =>
    rw [List.foldl_cons]
    by_cases hc : (g.is_iads && g.iads_role.participate) = true
    · have hstep : addGroupConnStep i net g = add_connection_at net i g := by
        simp [addGroupConnStep, hc]
      rw [hstep, ih]
      simp only [add_connection_at, updateAt_getElem?, if_pos rfl]
      cases h : net.nodes[i]? with
      | none => simp [h]
      | some node =>
        simp [h, IadsNetworkNode.add_connection_for_group, List.filter_cons, hc]
    · have hstep : addGroupConnStep i net g = net := by
        simp [addGroupConnStep, hc]
      rw [hstep, ih]
      simp [List.filter_cons, hc]

theorem addGroupConnStep_foldl_other (gs : List IadsGroundGroup) (net : IadsNetwork)
    (i j : Nat) (h : j ≠ i) :
    (gs.foldl (addGroupConnStep i) net).nodes[j]? = net.nodes[j]? := by
  induction gs generalizing net with
  | nil => rfl
  | cons g rest ih =>
    rw [List.foldl_cons]
    by_cases hc : (g.is_iads && g.iads_role.participate) = true
    · have hstep : addGroupConnStep i net g = add_connection_at net i g := by
        simp [addGroupConnStep, hc]
      rw [hstep, ih]
      simp only [add_connection_at, updateAt_getElem?]
      rw [if_neg (fun hh => h hh.symm)]
    · have hstep : addGroupConnStep i net g = net := by
        simp [addGroupConnStep, hc]
      rw [hstep, ih]

theorem addGroupConnStep_foldl_skeleton (gs : List IadsGroundGroup) (net : IadsNetwork)
    (i : Nat) :
    (gs.foldl (addGroupConnStep i) net).nodes.map (fun n => n.group)
        = net.nodes.map (fun n => n.group)
      ∧ (gs.foldl (addGroupConnStep i) net).ground_objects = net.ground_objects
      ∧ (gs.foldl (addGroupConnStep i) net).advanced_iads = net.advanced_iads
      ∧ (gs.foldl (addGroupConnStep i) net).iads_config = net.iads_config
      ∧ net.nextId ≤ (gs.foldl (addGroupConnStep i) net).nextId := by
  induction gs generalizing net with
  | nil => exact ⟨rfl, rfl, rfl, rfl, Nat.le_refl _⟩
  | cons g rest ih =>
    rw [List.foldl_cons]
    by_cases hc : (g.is_iads && g.iads_role.participate) = true
    · have hstep : addGroupConnStep i net g = add_connection_at net i g := by
        simp [addGroupConnStep, hc]
      rw [hstep]
      obtain ⟨h1, h2, h3, h4, h5⟩ := ih (add_connection_at net i g)
      refine ⟨?_, h2, h3, h4, ?_⟩
      · rw [h1]
        simp only [add_connection_at]
        exact map_updateAt_congr _ _ _ _ (fun x => rfl)
      · refine Nat.le_trans ?_ h5
        simp [add_connection_at]
    · have hstep : addGroupConnStep i net g = net := by
        simp [addGroupConnStep, hc]
      rw [hstep]
      exact ih net

theorem addGroupConnStep_foldl_extend (gs : List IadsGroundGroup) (net : IadsNetwork)
    (i : Nat) :
    ∃ extra, (gs.foldl (addGroupConnStep i) net).nodes[i]?
        = (net.nodes[i]?).map (fun n => { n with connections := n.connections ++ extra })
      ∧ ∀ c ∈ extra, net.nextId ≤ c.1 := by
  induction gs generalizing net with
  | nil =>
    refine ⟨[], ?_, by simp⟩
    cases h : net.nodes[i]? with
    | none => simp [h]
    | some n => simp [h]
  | cons g rest ih =>
    rw [List.foldl_cons]
    by_cases hc : (g.is_iads && g.iads_role.participate) = true
    · have hstep : addGroupConnStep i net g = add_connection_at net i g := by
        simp [addGroupConnStep, hc]
      rw [hstep]
      obtain ⟨extra, hx, hb⟩ := ih (add_connection_at net i g)
      refine ⟨(net.nextId, g) :: extra, ?_, ?_⟩
      · rw [hx]
        simp only [add_connection_at, updateAt_getElem?, if_pos rfl]
        cases h : net.nodes[i]? with
        | none => simp [h]
        | some n => simp [h, IadsNetworkNode.add_connection_for_group]
      · intro c hc2
        rcases List.mem_cons.mp hc2 with h1 | h1
        · subst h1; exact Nat.le_refl _
        · have := hb c h1
          refine Nat.le_trans ?_ this
          simp [add_connection_at]
    · have hstep : addGroupConnStep i net g = net := by
        simp [addGroupConnStep, hc]
      rw [hstep]
      exact ih net

theorem updateNetworkStep_foldl_other (tgo : TheaterGroundObject) (l : List Nat)
    (acc : IadsNetwork × List GameUpdateEvent) (i : Nat) (h : i ∉ l) :
    (l.foldl (updateNetworkStep tgo) acc).1.nodes[i]? = acc.1.nodes[i]? := by
  induction l generalizing acc with
  | nil => rfl
  | cons j rest ih =>
    have hij : i ≠ j := fun hh => h (hh ▸ List.mem_cons_self j rest)
    have hrest : i ∉ rest := fun hh => h (List.mem_cons_of_mem j hh)
    rw [List.foldl_cons, ih _ hrest]
    unfold updateNetworkStep
    cases hj : acc.1.nodes[j]? with
    | none => rfl
    | some node =>
      simp only
      by_cases hcond : (decide (distance_to_point node.group.ground_object.position tgo.position
            < (IadsRole.for_category tgo.category).connection_range)
          && IadsNetwork.is_friendly node tgo) = true
      · rw [if_pos hcond]
        exact addGroupConnStep_foldl_other _ _ _ _ hij
      · rw [if_neg hcond]

/-- Across the reactive fold of `_update_network`, every node keeps its
existing connection entries and only gains entries with freshly drawn ids. -/
theorem updateNetworkStep_foldl_extend (tgo : TheaterGroundObject) (l : List Nat)
    (acc : IadsNetwork × List GameUpdateEvent) (i : Nat) :
    ∃ extra, (l.foldl (updateNetworkStep tgo) acc).1.nodes[i]?
        = (acc.1.nodes[i]?).map (fun n => { n with connections := n.connections ++ extra })
      ∧ ∀ c ∈ extra, acc.1.nextId ≤ c.1 := by
  induction l generalizing acc with
  | nil =>
    refine ⟨[], ?_, by simp⟩
    cases h : acc.1.nodes[i]? with
    | none => simp [h]
    | some n => simp [h]
  | cons j rest ih =>
    rw [List.foldl_cons]
    have hmono : ∀ b : IadsNetwork × List GameUpdateEvent,
        b.1.nextId ≤ (updateNetworkStep tgo b j).1.nextId := by
      intro b
      unfold updateNetworkStep
      cases hb : b.1.nodes[j]? with
      | none => exact Nat.le_refl _
      | some node =>
        simp only
        by_cases hcond : (decide (distance_to_point node.group.ground_object.position tgo.position
              < (IadsRole.for_category tgo.category).connection_range)
            && IadsNetwork.is_friendly node tgo) = true
        · rw [if_pos hcond]
          exact (addGroupConnStep_foldl_skeleton tgo.groups b.1 j).2.2.2.2
        · rw [if_neg hcond]
    have hstep : ∃ extra0, (updateNetworkStep tgo acc j).1.nodes[i]?
        = (acc.1.nodes[i]?).map (fun n => { n with connections := n.connections ++ extra0 })
      ∧ ∀ c ∈ extra0, acc.1.nextId ≤ c.1 := by
      unfold updateNetworkStep
      cases hb : acc.1.nodes[j]? with
      | none =>
        refine ⟨[], ?_, by simp⟩
        cases h : acc.1.nodes[i]? with
        | none => simp [h]
        | some n => simp [h]
      | some node =>
        simp only
        by_cases hcond : (decide (distance_to_point node.group.ground_object.position tgo.position
              < (IadsRole.for_category tgo.category).connection_range)
            && IadsNetwork.is_friendly node tgo) = true
        · rw [if_pos hcond]
          by_cases hij : i = j
          · subst hij
            exact addGroupConnStep_foldl_extend tgo.groups acc.1 i
          · refine ⟨[], ?_, by simp⟩
            simp only [add_connection_for_tgo_at]
            rw [addGroupConnStep_foldl_other _ _ _ _ hij]
            cases h : acc.1.nodes[i]? with
            | none => simp [h]
            | some n => simp [h]
        · refine ⟨[], ?_, by simp⟩
          rw [if_neg hcond]
          cases h : acc.1.nodes[i]? with
          | none => simp [h]
          | some n => simp [h]

    obtain ⟨extra0, h0, hb0⟩ := hstep
    obtain ⟨extra1, h1, hb1⟩ := ih (updateNetworkStep tgo acc j)
    refine ⟨extra0 ++ extra1, ?_, ?_⟩
    · rw [h1, h0]
      cases h : acc.1.nodes[i]? with
      | none => simp [h]
      | some n => simp [h, List.append_assoc]
    · intro c hcm
      rcases List.mem_append.mp hcm with hm | hm
      · exact hb0 c hm
      · exact Nat.le_trans (hmono acc) (hb1 c hm)

/-- Content of the reactive fold of `_update_network` at one node index:
the node gains exactly the participating groups of the installation when it
is processed with the strict-range-and-side condition true, else nothing. -/
theorem updateNetworkStep_foldl_at (tgo : TheaterGroundObject) (l : List Nat)
    (hnodup : l.Nodup) (acc : IadsNetwork × List GameUpdateEvent) (i : Nat)
    (node : IadsNetworkNode) (hi : acc.1.nodes[i]? = some node) :
    ((l.foldl (updateNetworkStep tgo) acc).1.nodes[i]?).map (fun n => n.connections.map Prod.snd)
      = some (node.connections.map Prod.snd ++
          (if i ∈ l ∧ (decide (distance_to_point node.group.ground_object.position tgo.position
                < (IadsRole.for_category tgo.category).connection_range)
              && IadsNetwork.is_friendly node tgo) = true
            then participatingGroups tgo else [])) := by
  induction l generalizing acc with
  | nil => simp [hi]
  | cons j rest ih =>
    rw [List.foldl_cons]
    by_cases hij : i = j
    · subst hij
      have hrest : i ∉ rest := (List.nodup_cons.mp hnodup).1
      by_cases hcond : (decide (distance_to_point node.group.ground_object.position tgo.position
            < (IadsRole.for_category tgo.category).connection_range)
          && IadsNetwork.is_friendly node tgo) = true
      · have hstep : updateNetworkStep tgo acc i =
            (add_connection_for_tgo_at acc.1 i tgo,
              acc.2 ++ [GameUpdateEvent.updateIadsNode node.group.group_name]) := by
          unfold updateNetworkStep
          simp only [hi]
          rw [if_pos hcond]
        rw [hstep, updateNetworkStep_foldl_other tgo rest _ i hrest]
        simp only [add_connection_for_tgo_at]
        rw [addGroupConnStep_foldl_at, hi]
        simp [participatingGroups, hcond]
      · have hstep : updateNetworkStep tgo acc i = acc := by
          unfold updateNetworkStep
          simp only [hi]
          rw [if_neg hcond]
        rw [hstep, updateNetworkStep_foldl_other tgo rest acc i hrest, hi]
        simp [hcond]
    · have hrest := (List.nodup_cons.mp hnodup).2
      have hi' : (updateNetworkStep tgo acc j).1.nodes[i]? = some node := by
        unfold updateNetworkStep
        cases hj : acc.1.nodes[j]? with
        | none => exact hi
        | some nj =>
          simp only
          by_cases hcond : (decide (distance_to_point nj.group.ground_object.position tgo.position
                < (IadsRole.for_category tgo.category).connection_range)
              && IadsNetwork.is_friendly nj tgo) = true
          · rw [if_pos hcond]
            simp only [add_connection_for_tgo_at]
            rw [addGroupConnStep_foldl_other _ _ _ _ hij]
            exact hi
          · rw [if_neg hcond]
            exact hi
      rw [ih hrest _ hi']
      simp [List.mem_cons, hij]

/-- One candidate step of the initial range resolution: an infrastructure
candidate on the node's side contributes its participating groups exactly
when its distance is less than or equal to its role's range. -/
theorem rangeCandidateStep_at (net : IadsNetwork) (i : Nat) (tgoData : GroundObjectData)
    (nearby : TheaterGroundObject) (node : IadsNetworkNode)
    (hi : net.nodes[i]? = some node)
    (hrole : (IadsRole.for_category nearby.category).is_comms_or_power = true)
    (hname : nearby.original_name ≠ tgoData.original_name)
    (hfriendly : IadsNetwork.is_friendly node nearby = true) :
    ((rangeCandidateStep net i tgoData nearby).nodes[i]?).map
        (fun n => n.connections.map Prod.snd)
      = some (node.connections.map Prod.snd ++
          (if distance_to_point nearby.position tgoData.position
                ≤ (IadsRole.for_category nearby.category).connection_range
            then participatingGroups nearby else [])) := by
  unfold rangeCandidateStep
  rw [if_neg (by simp [hrole, hname])]
  simp only [hi]
  by_cases hle : distance_to_point nearby.position tgoData.position
      ≤ (IadsRole.for_category nearby.category).connection_range
  · rw [if_pos (by simp [hle, hfriendly])]
    simp only [add_connection_for_tgo_at]
    rw [addGroupConnStep_foldl_at, hi]
    simp [participatingGroups, hle]
  · rw [if_neg (by simp [hle])]
    rw [hi]
    simp [hle]

/-- The reactive path of `_update_network` for a live, friendly comms/power
installation: the node at index `i` gains the installation's participating
groups exactly when the distance is strictly below the role's range. -/
theorem update_network_reactive (net : IadsNetwork) (tgo : TheaterGroundObject)
    (i : Nat) (node : IadsNetworkNode) (hi : net.nodes[i]? = some node)
    (hdead : tgo.is_dead = false)
    (hrole : (IadsRole.for_category tgo.category).is_comms_or_power = true)
    (hfriendly : IadsNetwork.is_friendly node tgo = true) :
    ((update_network net tgo).1.nodes[i]?).map (fun n => n.connections.map Prod.snd)
      = some (node.connections.map Prod.snd ++
          (if distance_to_point node.group.ground_object.position tgo.position
                < (IadsRole.for_category tgo.category).connection_range
            then participatingGroups tgo else [])) := by
  unfold update_network
  rw [if_neg (by simp [hdead])]
  rw [if_neg (by simp [hrole])]
  have hmem : i ∈ List.range net.nodes.length := by
    rw [List.mem_range]
    by_contra hge
    push_neg at hge
    have hnone : net.nodes[i]? = none := List.getElem?_eq_none (by omega)
    rw [hnone] at hi
    cases hi
  rw [updateNetworkStep_foldl_at tgo _ (List.nodup_range _) (net, []) i node hi]
  by_cases hlt : distance_to_point node.group.ground_object.position tgo.position
      < (IadsRole.for_category tgo.category).connection_range
  · simp [hmem, hlt, hfriendly]
  · simp [hlt]

/-- `_update_network` on a dead installation: no new links, no events. -/
theorem update_network_dead (net : IadsNetwork) (tgo : TheaterGroundObject)
    (hdead : tgo.is_dead = true) : update_network net tgo = (net, []) := by
  unfold update_network
  rw [if_pos hdead]

/-- C3: initial range resolution forms a candidate's connections exactly
when the planar distance is ≤ the candidate role's range (boundary
included); the reactive infrastructure update forms them exactly when the
distance is strictly < the range (boundary excluded); and the reactive path
forms no connection at all for a dead installation. -/
theorem range_boundary_policy (net : IadsNetwork) (i : Nat) (node : IadsNetworkNode)
    (hi : net.nodes[i]? = some node) :
    (∀ (tgoData : GroundObjectData) (nearby : TheaterGroundObject),
      (IadsRole.for_category nearby.category).is_comms_or_power = true →
      nearby.original_name ≠ tgoData.original_name →
      IadsNetwork.is_friendly node nearby = true →
      ((rangeCandidateStep net i tgoData nearby).nodes[i]?).map
          (fun n => n.connections.map Prod.snd)
        = some (node.connections.map Prod.snd ++
            (if distance_to_point nearby.position tgoData.position
                  ≤ (IadsRole.for_category nearby.category).connection_range
              then participatingGroups nearby else []))) ∧
    (∀ tgo : TheaterGroundObject, tgo.is_dead = false →
      (IadsRole.for_category tgo.category).is_comms_or_power = true →
      IadsNetwork.is_friendly node tgo = true →
      ((update_network net tgo).1.nodes[i]?).map (fun n => n.connections.map Prod.snd)
        = some (node.connections.map Prod.snd ++
            (if distance_to_point node.group.ground_object.position tgo.position
                  < (IadsRole.for_category tgo.category).connection_range
              then participatingGroups tgo else []))) ∧
    (∀ tgo : TheaterGroundObject, tgo.is_dead = true →
      update_network net tgo = (net, [])) :=
  ⟨fun tgoData nearby h1 h2 h3 =>
      rangeCandidateStep_at net i tgoData nearby node hi h1 h2 h3,
    fun tgo h1 h2 h3 => update_network_reactive net tgo i node hi h1 h2 h3,
    fun tgo h => update_network_dead net tgo h⟩

/-- Witness for C3 at the exact boundary distance (5000 = the power-source
range): the initial resolution step adds the connection, the reactive update
does not, and a dead installation adds nothing. -/
theorem range_boundary_policy_witness :
    ((rangeCandidateStep exNetOneNode 0 exDataA exTgoPowerBoundary).nodes[0]?).map
        (fun n => n.connections.map Prod.snd) = some [exGroupPower]
    ∧ ((update_network exNetOneNode exTgoPowerBoundary).1.nodes[0]?).map
        (fun n => n.connections.map Prod.snd) = some []
    ∧ update_network exNetOneNode exTgoPowerDead = (exNetOneNode, []) := by
  have h := range_boundary_policy exNetOneNode 0 exNodeA rfl
  refine ⟨?_, ?_, h.2.2 exTgoPowerDead rfl⟩
  · have ha := h.1 exDataA exTgoPowerBoundary rfl (by decide) rfl
    exact ha.trans (by decide)
  · have hb := h.2.1 exTgoPowerBoundary rfl rfl rfl
    exact hb.trans (by decide)

theorem commsConnEvent_foldl (node : IadsNetworkNode) (tgo : TheaterGroundObject)
    (conns : List (Nat × IadsGroundGroup)) (acc : List GameUpdateEvent) :
    conns.foldl (commsConnEvent node tgo) acc = acc ++
      (conns.filter (fun c =>
          decide (c.2.ground_object.original_name = tgo.original_name))).map
        (fun c =>
          if IadsNetwork.is_friendly node tgo then
            GameUpdateEvent.updateIadsNode node.group.group_name
          else
            GameUpdateEvent.deleteIadsConnection c.1) := by
  induction conns generalizing acc with
  | nil => simp
  | cons c rest ih =>
    rw [List.foldl_cons, ih]
    by_cases hm : c.2.ground_object.original_name = tgo.original_name
    · by_cases hf : IadsNetwork.is_friendly node tgo = true
      · simp [commsConnEvent, hm, hf, List.filter_cons]
      · simp only [Bool.not_eq_true] at hf
        simp [commsConnEvent, hm, hf, List.filter_cons]
    · simp [commsConnEvent, hm, List.filter_cons]

theorem update_node_for_comms_spec (node : IadsNetworkNode) (tgo : TheaterGroundObject) :
    update_node_for_comms node tgo =
      ({ node with connections := node.connections.filter (fun c =>
          !(decide (c.2.ground_object.original_name = tgo.original_name)
            && !IadsNetwork.is_friendly node tgo)) },
        (node.connections.filter (fun c =>
            decide (c.2.ground_object.original_name = tgo.original_name))).map
          (fun c =>
            if IadsNetwork.is_friendly node tgo then
              GameUpdateEvent.updateIadsNode node.group.group_name
            else
              GameUpdateEvent.deleteIadsConnection c.1)) := by
  unfold update_node_for_comms
  rw [commsConnEvent_foldl]
  simp

theorem commsScanStep_foldl (tgo : TheaterGroundObject) (nodes : List IadsNetworkNode)
    (acc : List IadsNetworkNode × List GameUpdateEvent) :
    nodes.foldl (commsScanStep tgo) acc =
      (acc.1 ++ nodes.map (fun n => (update_node_for_comms n tgo).1),
        acc.2 ++ (nodes.map (fun n => (update_node_for_comms n tgo).2)).flatten) := by
  induction nodes generalizing acc with
  | nil => simp
  | cons n rest ih =>
    rw [List.foldl_cons, ih]
    simp [commsScanStep]

theorem getElem?_append_cons {α : Type} (pre post : List α) (x : α) :
    (pre ++ x :: post)[pre.length]? = some x := by
  induction pre with
  | nil => simp
  | cons y ys ih => simpa using ih

/-- `_update_network` never removes a connection: every node keeps its
entries and gains only entries with ids drawn at or above the current
counter. -/
theorem update_network_extend (net : IadsNetwork) (tgo : TheaterGroundObject) (j : Nat) :
    ∃ extra, (update_network net tgo).1.nodes[j]?
        = (net.nodes[j]?).map (fun n => { n with connections := n.connections ++ extra })
      ∧ ∀ c ∈ extra, net.nextId ≤ c.1 := by
  unfold update_network
  by_cases hdead : tgo.is_dead = true
  · rw [if_pos hdead]
    refine ⟨[], ?_, by simp⟩
    cases h : net.nodes[j]? with
    | none => simp [h]
    | some n => simp [h]
  · rw [if_neg hdead]
    by_cases hrole : (!(IadsRole.for_category tgo.category).is_comms_or_power) = true
    · rw [if_pos hrole]
      refine ⟨[], ?_, by simp⟩
      cases h : net.nodes[j]? with
      | none => simp [h]
      | some n => simp [h]
    · rw [if_neg hrole]
      exact updateNetworkStep_foldl_extend tgo _ (net, []) j

/-- Every event `_update_network` emits is a node-update notification. -/
theorem updateNetworkStep_foldl_events (tgo : TheaterGroundObject) (l : List Nat)
    (acc : IadsNetwork × List GameUpdateEvent) :
    ∃ extra, (l.foldl (updateNetworkStep tgo) acc).2 = acc.2 ++ extra
      ∧ ∀ e ∈ extra, ∃ nm, e = GameUpdateEvent.updateIadsNode nm := by
  induction l generalizing acc with
  | nil => exact ⟨[], by simp, by simp⟩
  | cons j rest ih =>
    rw [List.foldl_cons]
    have hstep : ∃ extra0, (updateNetworkStep tgo acc j).2 = acc.2 ++ extra0
        ∧ ∀ e ∈ extra0, ∃ nm, e = GameUpdateEvent.updateIadsNode nm := by
      unfold updateNetworkStep
      cases hb : acc.1.nodes[j]? with
      | none => exact ⟨[], by simp, by simp⟩
      | some node =>
        simp only
        by_cases hcond : (decide (distance_to_point node.group.ground_object.position tgo.position
              < (IadsRole.for_category tgo.category).connection_range)
            && IadsNetwork.is_friendly node tgo) = true
        · rw [if_pos hcond]
          exact ⟨[GameUpdateEvent.updateIadsNode node.group.group_name], rfl,
            by intro e he; simp at he; exact ⟨node.group.group_name, he⟩⟩
        · rw [if_neg hcond]
          exact ⟨[], by simp, by simp⟩
    obtain ⟨extra0, h0, hu0⟩ := hstep
    obtain ⟨extra1, h1, hu1⟩ := ih (updateNetworkStep tgo acc j)
    refine ⟨extra0 ++ extra1, ?_, ?_⟩
    · rw [h1, h0, List.append_assoc]
    · intro e he
      rcases List.mem_append.mp he with h | h
      · exact hu0 e h
      · exact hu1 e h

theorem update_network_events (net : IadsNetwork) (tgo : TheaterGroundObject) :
    ∀ e ∈ (update_network net tgo).2, ∃ nm, e = GameUpdateEvent.updateIadsNode nm := by
  unfold update_network
  by_cases hdead : tgo.is_dead = true
  · rw [if_pos hdead]
    simp
  · rw [if_neg hdead]
    by_cases hrole : (!(IadsRole.for_category tgo.category).is_comms_or_power) = true
    · rw [if_pos hrole]
      simp
    · rw [if_neg hrole]
      obtain ⟨extra, he, hu⟩ := updateNetworkStep_foldl_events tgo
        (List.range net.nodes.length) (net, [])
      rw [he]
      simpa using hu

/-- Infrastructure update, destroyed-not-captured side: a connection to the
changed installation from a node still on its side is kept, and the node is
notified. -/
theorem comms_update_friendly_case (net : IadsNetwork) (tgo : TheaterGroundObject)
    (pre post : List IadsNetworkNode) (node : IadsNetworkNode)
    (cid : Nat) (group : IadsGroundGroup)
    (hadv : net.advanced_iads = true)
    (hrole : (IadsRole.for_category tgo.category).is_comms_or_power = true)
    (hsplit : net.nodes = pre ++ node :: post)
    (hcmem : (cid, group) ∈ node.connections)
    (hmatch : group.ground_object.original_name = tgo.original_name)
    (hf : IadsNetwork.is_friendly node tgo = true) :
    ∃ node', (update_tgo net tgo).1.nodes[pre.length]? = some node'
      ∧ (cid, group) ∈ node'.connections
      ∧ GameUpdateEvent.updateIadsNode node.group.group_name ∈ (update_tgo net tgo).2 := by
  have hroute : update_tgo net tgo = update_iads_comms_and_power net tgo := by
    unfold update_tgo
    rw [if_pos (by simp [hadv, hrole])]
  have hscan := commsScanStep_foldl tgo net.nodes ([], [])
  have hmain : update_iads_comms_and_power net tgo =
      (if net.iads_config = [] then
        ((update_network
            { net with nodes := net.nodes.map (fun n => (update_node_for_comms n tgo).1) } tgo).1,
          (net.nodes.map (fun n => (update_node_for_comms n tgo).2)).flatten
            ++ (update_network
              { net with nodes := net.nodes.map (fun n => (update_node_for_comms n tgo).1) } tgo).2)
      else
        ({ net with nodes := net.nodes.map (fun n => (update_node_for_comms n tgo).1) },
          (net.nodes.map (fun n => (update_node_for_comms n tgo).2)).flatten)) := by
    unfold update_iads_comms_and_power
    rw [hscan]
    simp
  have hmapped : (net.nodes.map (fun n => (update_node_for_comms n tgo).1))[pre.length]?
      = some ((update_node_for_comms node tgo).1) := by
    rw [hsplit, List.map_append, List.map_cons]
    have h := getElem?_append_cons (pre.map (fun n => (update_node_for_comms n tgo).1))
      (post.map (fun n => (update_node_for_comms n tgo).1)) ((update_node_for_comms node tgo).1)
    simpa using h
  have hkeep : (update_node_for_comms node tgo).1.connections = node.connections := by
    rw [update_node_for_comms_spec]
    apply List.filter_eq_self.mpr
    intro c hc
    simp [hf]
  have hmem : (cid, group) ∈ (update_node_for_comms node tgo).1.connections := by
    rw [hkeep]
    exact hcmem
  have hevmem : GameUpdateEvent.updateIadsNode node.group.group_name
      ∈ (net.nodes.map (fun n => (update_node_for_comms n tgo).2)).flatten := by
    apply List.mem_flatten.mpr
    refine ⟨(update_node_for_comms node tgo).2, List.mem_map_of_mem _ ?_, ?_⟩
    · rw [hsplit]
      simp
    · rw [update_node_for_comms_spec]
      apply List.mem_map.mpr
      refine ⟨(cid, group), ?_, by simp [hf]⟩
      rw [List.mem_filter]
      exact ⟨hcmem, by simpa using hmatch⟩
  rw [hroute, hmain]
  by_cases hcfg : net.iads_config = []
  · rw [if_pos hcfg]
    obtain ⟨extra, hx, hb⟩ := update_network_extend
      { net with nodes := net.nodes.map (fun n => (update_node_for_comms n tgo).1) } tgo pre.length
    refine ⟨{ (update_node_for_comms node tgo).1 with
        connections := (update_node_for_comms node tgo).1.connections ++ extra }, ?_, ?_, ?_⟩
    · rw [hx]
      have hnodes : ({ net with
          nodes := net.nodes.map (fun n => (update_node_for_comms n tgo).1) } :
            IadsNetwork).nodes[pre.length]?
          = some ((update_node_for_comms node tgo).1) := hmapped
      rw [hnodes]
      rfl
    · exact List.mem_append_left _ hmem
    · exact List.mem_append_left _ hevmem
  · rw [if_neg hcfg]
    exact ⟨(update_node_for_comms node tgo).1, hmapped, hmem, hevmem⟩

/-- Infrastructure update, captured side: the connection to the now-hostile
installation is deleted from its node and exactly one deletion notification
with its id is emitted. -/
theorem comms_update_capture_case (net : IadsNetwork) (tgo : TheaterGroundObject)
    (pre post : List IadsNetworkNode) (node : IadsNetworkNode)
    (cpre cpost : List (Nat × IadsGroundGroup)) (cid : Nat) (group : IadsGroundGroup)
    (hadv : net.advanced_iads = true)
    (hrole : (IadsRole.for_category tgo.category).is_comms_or_power = true)
    (hsplit : net.nodes = pre ++ node :: post)
    (hcsplit : node.connections = cpre ++ (cid, group) :: cpost)
    (hmatch : group.ground_object.original_name = tgo.original_name)
    (hothers : ∀ n ∈ pre ++ post, ∀ c ∈ n.connections, c.1 ≠ cid)
    (hcuniq : ∀ c ∈ cpre ++ cpost, c.1 ≠ cid)
    (hfresh : cid < net.nextId)
    (hf : IadsNetwork.is_friendly node tgo = false) :
    ∃ node', (update_tgo net tgo).1.nodes[pre.length]? = some node'
      ∧ (∀ g, (cid, g) ∉ node'.connections)
      ∧ ((update_tgo net tgo).2).count (GameUpdateEvent.deleteIadsConnection cid) = 1 := by
  have hroute : update_tgo net tgo = update_iads_comms_and_power net tgo := by
    unfold update_tgo
    rw [if_pos (by simp [hadv, hrole])]
  have hscan := commsScanStep_foldl tgo net.nodes ([], [])
  have hmain : update_iads_comms_and_power net tgo =
      (if net.iads_config = [] then
        ((update_network
            { net with nodes := net.nodes.map (fun n => (update_node_for_comms n tgo).1) } tgo).1,
          (net.nodes.map (fun n => (update_node_for_comms n tgo).2)).flatten
            ++ (update_network
              { net with nodes := net.nodes.map (fun n => (update_node_for_comms n tgo).1) } tgo).2)
      else
        ({ net with nodes := net.nodes.map (fun n => (update_node_for_comms n tgo).1) },
          (net.nodes.map (fun n => (update_node_for_comms n tgo).2)).flatten)) := by
    unfold update_iads_comms_and_power
    rw [hscan]
    simp
  have hmapped : (net.nodes.map (fun n => (update_node_for_comms n tgo).1))[pre.length]?
      = some ((update_node_for_comms node tgo).1) := by
    rw [hsplit, List.map_append, List.map_cons]
    have h := getElem?_append_cons (pre.map (fun n => (update_node_for_comms n tgo).1))
      (post.map (fun n => (update_node_for_comms n tgo).1)) ((update_node_for_comms node tgo).1)
    simpa using h
  have hnocid : ∀ g, (cid, g) ∉ (update_node_for_comms node tgo).1.connections := by
    intro g hg
    rw [update_node_for_comms_spec] at hg
    simp only at hg
    obtain ⟨hmem', hpred⟩ := List.mem_filter.mp hg
    rw [hf] at hpred
    simp only [Bool.not_false, Bool.and_true, Bool.not_eq_eq_eq_not, Bool.not_true] at hpred
    rw [hcsplit] at hmem'
    rcases List.mem_append.mp hmem' with h1 | h1
    · exact hcuniq _ (List.mem_append_left _ h1) rfl
    · rcases List.mem_cons.mp h1 with h2 | h2
      · have hg2 : g = group := congrArg Prod.snd h2
        rw [hg2, hmatch] at hpred
        simp at hpred
      · exact hcuniq _ (List.mem_append_right _ h2) rfl
  have hcount : ((net.nodes.map (fun n => (update_node_for_comms n tgo).2)).flatten).count
      (GameUpdateEvent.deleteIadsConnection cid) = 1 := by
    rw [hsplit, List.map_append, List.map_cons, List.flatten_append, List.flatten_cons]
    rw [List.count_append, List.count_append]
    have hpre0 : ((pre.map (fun n => (update_node_for_comms n tgo).2)).flatten).count
        (GameUpdateEvent.deleteIadsConnection cid) = 0 := by
      rw [List.count_eq_zero]
      intro hmem
      obtain ⟨l, hl, hme⟩ := List.mem_flatten.mp hmem
      obtain ⟨n, hn, rfl⟩ := List.mem_map.mp hl
      rw [update_node_for_comms_spec] at hme
      simp only at hme
      obtain ⟨c, hcf, heq⟩ := List.mem_map.mp hme
      by_cases hfn : IadsNetwork.is_friendly n tgo = true
      · rw [if_pos hfn] at heq
        cases heq
      · rw [if_neg hfn] at heq
        have hc1 : c.1 = cid := by
          injection heq
        exact hothers n (List.mem_append_left _ hn) c (List.mem_of_mem_filter hcf) hc1
    have hpost0 : ((post.map (fun n => (update_node_for_comms n tgo).2)).flatten).count
        (GameUpdateEvent.deleteIadsConnection cid) = 0 := by
      rw [List.count_eq_zero]
      intro hmem
      obtain ⟨l, hl, hme⟩ := List.mem_flatten.mp hmem
      obtain ⟨n, hn, rfl⟩ := List.mem_map.mp hl
      rw [update_node_for_comms_spec] at hme
      simp only at hme
      obtain ⟨c, hcf, heq⟩ := List.mem_map.mp hme
      by_cases hfn : IadsNetwork.is_friendly n tgo = true
      · rw [if_pos hfn] at heq
        cases heq
      · rw [if_neg hfn] at heq
        have hc1 : c.1 = cid := by
          injection heq
        exact hothers n (List.mem_append_right _ hn) c (List.mem_of_mem_filter hcf) hc1
    have hnode1 : ((update_node_for_comms node tgo).2).count
        (GameUpdateEvent.deleteIadsConnection cid) = 1 := by
      rw [update_node_for_comms_spec]
      simp only [hf, if_neg (by simp : ¬ (false = true))]
      rw [hcsplit, List.filter_append, List.filter_cons]
      rw [if_pos (by simpa using hmatch)]
      rw [List.map_append, List.map_cons, List.count_append]
      have hl0 : ((cpre.filter (fun c =>
            decide (c.2.ground_object.original_name = tgo.original_name))).map
          (fun c => GameUpdateEvent.deleteIadsConnection c.1)).count
            (GameUpdateEvent.deleteIadsConnection cid) = 0 := by
        rw [List.count_eq_zero]
        intro hmem
        obtain ⟨c, hcf, heq⟩ := List.mem_map.mp hmem
        have hc1 : c.1 = cid := by injection heq
        exact hcuniq c (List.mem_append_left _ (List.mem_of_mem_filter hcf)) hc1
      have hr0 : ((cpost.filter (fun c =>
            decide (c.2.ground_object.original_name = tgo.original_name))).map
          (fun c => GameUpdateEvent.deleteIadsConnection c.1)).count
            (GameUpdateEvent.deleteIadsConnection cid) = 0 := by
        rw [List.count_eq_zero]
        intro hmem
        obtain ⟨c, hcf, heq⟩ := List.mem_map.mp hmem
        have hc1 : c.1 = cid := by injection heq
        exact hcuniq c (List.mem_append_right _ (List.mem_of_mem_filter hcf)) hc1
      rw [hl0, List.count_cons]
      simp [hr0]
    rw [hpre0, hnode1, hpost0]
  rw [hroute, hmain]
  by_cases hcfg : net.iads_config = []
  · rw [if_pos hcfg]
    obtain ⟨extra, hx, hb⟩ := update_network_extend
      { net with nodes := net.nodes.map (fun n => (update_node_for_comms n tgo).1) } tgo pre.length
    refine ⟨{ (update_node_for_comms node tgo).1 with
        connections := (update_node_for_comms node tgo).1.connections ++ extra }, ?_, ?_, ?_⟩
    · rw [hx]
      have hnodes : ({ net with
          nodes := net.nodes.map (fun n => (update_node_for_comms n tgo).1) } :
            IadsNetwork).nodes[pre.length]?
          = some ((update_node_for_comms node tgo).1) := hmapped
      rw [hnodes]
      rfl
    · intro g hg
      rcases List.mem_append.mp hg with h1 | h1
      · exact hnocid g h1
      · have := hb _ h1
        simp only at this
        omega
    · rw [List.count_append, hcount]
      have h0 : ((update_network { net with
          nodes := net.nodes.map (fun n => (update_node_for_comms n tgo).1) } tgo).2).count
            (GameUpdateEvent.deleteIadsConnection cid) = 0 := by
        rw [List.count_eq_zero]
        intro hmem
        obtain ⟨nm, hnm⟩ := update_network_events _ _ _ hmem
        cases hnm
      rw [h0]
  · rw [if_neg hcfg]
    exact ⟨(update_node_for_comms node tgo).1, hmapped, hnocid, hcount⟩

/-- C2: updating a comms/power installation in advanced mode — for a node
holding a connection to that installation: if the installation's current
side equals the node's side the connection is kept and a node-update
notification is emitted for the node; if the sides differ the connection is
deleted from the node and exactly one deletion notification carrying its id
is emitted.  The id-freshness hypotheses record that connection ids are
drawn fresh from the counter (Python's `uuid4`), hence unique. -/
theorem comms_power_update_semantics (net : IadsNetwork) (tgo : TheaterGroundObject)
    (pre post : List IadsNetworkNode) (node : IadsNetworkNode)
    (cpre cpost : List (Nat × IadsGroundGroup)) (cid : Nat) (group : IadsGroundGroup)
    (hadv : net.advanced_iads = true)
    (hrole : (IadsRole.for_category tgo.category).is_comms_or_power = true)
    (hsplit : net.nodes = pre ++ node :: post)
    (hcsplit : node.connections = cpre ++ (cid, group) :: cpost)
    (hmatch : group.ground_object.original_name = tgo.original_name)
    (hothers : ∀ n ∈ pre ++ post, ∀ c ∈ n.connections, c.1 ≠ cid)
    (hcuniq : ∀ c ∈ cpre ++ cpost, c.1 ≠ cid)
    (hfresh : cid < net.nextId) :
    (IadsNetwork.is_friendly node tgo = true →
      ∃ node', (update_tgo net tgo).1.nodes[pre.length]? = some node'
        ∧ (cid, group) ∈ node'.connections
        ∧ GameUpdateEvent.updateIadsNode node.group.group_name ∈ (update_tgo net tgo).2) ∧
    (IadsNetwork.is_friendly node tgo = false →
      ∃ node', (update_tgo net tgo).1.nodes[pre.length]? = some node'
        ∧ (∀ g, (cid, g) ∉ node'.connections)
        ∧ ((update_tgo net tgo).2).count (GameUpdateEvent.deleteIadsConnection cid) = 1) :=
  ⟨fun hf =>
    comms_update_friendly_case net tgo pre post node cid group hadv hrole hsplit
      (by rw [hcsplit]; simp) hmatch hf,
  fun hf =>
    comms_update_capture_case net tgo pre post node cpre cpost cid group hadv hrole hsplit
      hcsplit hmatch hothers hcuniq hfresh hf⟩

/-- Witness for C2: after `B` is captured, updating it deletes `A`'s
connection 0 and emits exactly one deletion notification with id 0. -/
theorem comms_power_update_semantics_witness :
    ∃ node', (update_tgo exNetConn exTgoPowerCaptured).1.nodes[0]? = some node'
      ∧ (∀ g, (0, g) ∉ node'.connections)
      ∧ ((update_tgo exNetConn exTgoPowerCaptured).2).count
          (GameUpdateEvent.deleteIadsConnection 0) = 1 :=
  (comms_power_update_semantics exNetConn exTgoPowerCaptured [] [] exNodeConn [] [] 0
      exGroupPower rfl rfl rfl rfl rfl (by simp) (by simp) (by decide)).2 rfl

/-- On a list with no node anchored on the installation, the
remove-while-iterating scan removes nothing. -/
theorem removeNodesScan_no_match (tgo : TheaterGroundObject) (l : List IadsNetworkNode)
    (h : ∀ n ∈ l, ¬ n.group.ground_object.original_name = tgo.original_name) :
    removeNodesScan tgo l = (l, []) := by
  induction l with
  | nil => rfl
  | cons cn rest ih =>
    have hcn := h cn (List.mem_cons_self cn rest)
    cases rest with
    | nil => simp [removeNodesScan, hcn]
    | cons next rest2 =>
      have hr := ih (fun n hn => h n (List.mem_cons_of_mem cn hn))
      simp [removeNodesScan, hcn, hr]

/-- With at most one node anchored on the installation (the network's
uniqueness invariant), Python's remove-while-iterating over the node list
behaves as an exact partition: all anchored nodes removed, the rest kept in
order. -/
theorem removeNodesScan_eq (tgo : TheaterGroundObject) (l : List IadsNetworkNode)
    (h : (l.filter (fun n =>
      decide (n.group.ground_object.original_name = tgo.original_name))).length ≤ 1) :
    removeNodesScan tgo l =
      (l.filter (fun n => !decide (n.group.ground_object.original_name = tgo.original_name)),
        l.filter (fun n =>
          decide (n.group.ground_object.original_name = tgo.original_name))) := by
  induction l with
  | nil => rfl
  | cons cn rest ih =>
    by_cases hm : cn.group.ground_object.original_name = tgo.original_name
    · have hrest : ∀ n ∈ rest, ¬ n.group.ground_object.original_name = tgo.original_name := by
        intro n hn hn2
        have : 2 ≤ ((cn :: rest).filter (fun n =>
            decide (n.group.ground_object.original_name = tgo.original_name))).length := by
          rw [List.filter_cons, if_pos (by simpa using hm)]
          have hmem : n ∈ rest.filter (fun n =>
              decide (n.group.ground_object.original_name = tgo.original_name)) :=
            List.mem_filter.mpr ⟨hn, by simpa using hn2⟩
          have := List.length_pos_of_mem hmem
          simp only [List.length_cons]
          omega
        omega
      have hfilterrest : rest.filter (fun n =>
          decide (n.group.ground_object.original_name = tgo.original_name)) = [] := by
        rw [List.filter_eq_nil_iff]
        intro n hn
        simpa using hrest n hn
      have hfilterrest2 : rest.filter (fun n =>
          !decide (n.group.ground_object.original_name = tgo.original_name)) = rest := by
        apply List.filter_eq_self.mpr
        intro n hn
        simpa using hrest n hn
      cases rest with
      | nil => simp [removeNodesScan, hm]
      | cons next rest2 =>
        have hnext := hrest next (List.mem_cons_self next rest2)
        have hrest2 : ∀ n ∈ rest2, ¬ n.group.ground_object.original_name = tgo.original_name :=
          fun n hn => hrest n (List.mem_cons_of_mem next hn)
        rw [show removeNodesScan tgo (cn :: next :: rest2)
            = (next :: (removeNodesScan tgo rest2).1, cn :: (removeNodesScan tgo rest2).2) by
          simp [removeNodesScan, hm]]
        rw [removeNodesScan_no_match tgo rest2 hrest2]
        have h1 : rest2.filter (fun n =>
            !decide (n.group.ground_object.original_name = tgo.original_name)) = rest2 := by
          apply List.filter_eq_self.mpr
          intro n hn
          simpa using hrest2 n hn
        have h2 : rest2.filter (fun n =>
            decide (n.group.ground_object.original_name = tgo.original_name)) = [] := by
          rw [List.filter_eq_nil_iff]
          intro n hn
          simpa using hrest2 n hn
        simp [List.filter_cons, hm, hnext, h1, h2]
    · have hlen : (rest.filter (fun n =>
          decide (n.group.ground_object.original_name = tgo.original_name))).length ≤ 1 := by
        rw [List.filter_cons, if_neg (by simpa using hm)] at h
        exact h
      cases rest with
      | nil => simp [removeNodesScan, hm]
      | cons next rest2 =>
        rw [show removeNodesScan tgo (cn :: next :: rest2)
            = (cn :: (removeNodesScan tgo (next :: rest2)).1,
              (removeNodesScan tgo (next :: rest2)).2) by
          simp [removeNodesScan, hm]]
        rw [ih hlen]
        simp [List.filter_cons, hm]

theorem deleteEventsStep_foldl (l : List IadsNetworkNode) (acc : List GameUpdateEvent) :
    l.foldl deleteEventsStep acc = acc ++ (l.map (fun cn =>
      cn.connections.map (fun c => GameUpdateEvent.deleteIadsConnection c.1))).flatten := by
  induction l generalizing acc with
  | nil => simp
  | cons cn rest ih =>
    rw [List.foldl_cons, ih]
    simp [deleteEventsStep]

theorem tgoGroupStep_foldl_preserves (l : List IadsGroundGroup)
    (acc : IadsNetwork × Option Nat) :
    (l.foldl tgoGroupStep acc).1.advanced_iads = acc.1.advanced_iads
      ∧ (l.foldl tgoGroupStep acc).1.iads_config = acc.1.iads_config
      ∧ (l.foldl tgoGroupStep acc).1.ground_objects = acc.1.ground_objects := by
  induction l generalizing acc with
  | nil => exact ⟨rfl, rfl, rfl⟩
  | cons g rest ih =>
    rw [List.foldl_cons]
    have hstep : (tgoGroupStep acc g).1.advanced_iads = acc.1.advanced_iads
        ∧ (tgoGroupStep acc g).1.iads_config = acc.1.iads_config
        ∧ (tgoGroupStep acc g).1.ground_objects = acc.1.ground_objects := by
      unfold tgoGroupStep
      by_cases h1 : (g.is_iads && decide (0 < g.alive_units)) = true
      · rw [if_pos h1]
        cases hopt : acc.2 with
        | none =>
          by_cases hp : g.iads_role.participate = true
          · simp only [hp, if_pos]
            unfold node_for_group
            cases hfind : acc.1.nodes.findIdx? (fun cn => decide (cn.group = g)) with
            | some i => exact ⟨rfl, rfl, rfl⟩
            | none => exact ⟨rfl, rfl, rfl⟩
          · simp only [hp]
            simp
        | some i =>
          by_cases hpd : g.iads_role = IadsRole.pointDefense
          · simp only [hpd, if_pos]
            exact ⟨rfl, rfl, rfl⟩
          · simp [hpd]
      · rw [if_neg h1]
        exact ⟨rfl, rfl, rfl⟩
    obtain ⟨h1, h2, h3⟩ := ih (tgoGroupStep acc g)
    exact ⟨h1.trans hstep.1, h2.trans hstep.2.1, h3.trans hstep.2.2⟩

theorem node_for_tgo_preserves (net : IadsNetwork) (tgo : TheaterGroundObject) :
    (node_for_tgo net tgo).1.advanced_iads = net.advanced_iads
      ∧ (node_for_tgo net tgo).1.iads_config = net.iads_config
      ∧ (node_for_tgo net tgo).1.ground_objects = net.ground_objects := by
  unfold node_for_tgo
  cases hfind : net.nodes.findIdx? (fun cn =>
      decide (cn.group.ground_object.original_name = tgo.original_name)) with
  | some i => exact ⟨rfl, rfl, rfl⟩
  | none => exact tgoGroupStep_foldl_preserves tgo.groups (net, none)

/-- Once the scan of `node_for_tgo` has anchored a node, it stays anchored. -/
theorem tgoGroupStep_foldl_some_stays (l : List IadsGroundGroup) (net : IadsNetwork) (i : Nat) :
    (l.foldl tgoGroupStep (net, some i)).2 = some i := by
  rw [foldl_tgoGroupStep_some]

/-- A scan step that leaves the anchor unset leaves the network unchanged. -/
theorem foldl_tgoGroupStep_none_id (l : List IadsGroundGroup) (net : IadsNetwork)
    (h : (l.foldl tgoGroupStep (net, none)).2 = none) :
    (l.foldl tgoGroupStep (net, none)).1 = net := by
  induction l generalizing net with
  | nil => rfl
  | cons g rest ih =>
    rw [List.foldl_cons] at h ⊢
    by_cases hsome : ∃ j, (tgoGroupStep (net, none) g).2 = some j
    · obtain ⟨j, hj⟩ := hsome
      have hpair : tgoGroupStep (net, none) g = ((tgoGroupStep (net, none) g).1, some j) := by
        rw [Prod.ext_iff]
        exact ⟨rfl, hj⟩
      rw [hpair, tgoGroupStep_foldl_some_stays] at h
      cases h
    · push_neg at hsome
      have hnone : (tgoGroupStep (net, none) g).2 = none := by
        cases ho : (tgoGroupStep (net, none) g).2 with
        | none => rfl
        | some j => exact absurd ho (hsome j)
      have hid : tgoGroupStep (net, none) g = (net, none) := by
        unfold tgoGroupStep at hnone ⊢
        by_cases h1 : (g.is_iads && decide (0 < g.alive_units)) = true
        · rw [if_pos h1] at hnone ⊢
          by_cases hp : g.iads_role.participate = true
          · simp only [hp, if_pos] at hnone
            cases hnone
          · simp [hp]
        · rw [if_neg h1]
      rw [hid] at h ⊢
      exact ih net h

/-- When `node_for_tgo` reports no node, it has not changed the network. -/
theorem node_for_tgo_none_id (net : IadsNetwork) (tgo : TheaterGroundObject)
    (h : (node_for_tgo net tgo).2 = none) : (node_for_tgo net tgo).1 = net := by
  unfold node_for_tgo at h ⊢
  cases hfind : net.nodes.findIdx? (fun cn =>
      decide (cn.group.ground_object.original_name = tgo.original_name)) with
  | some i => rfl
  | none =>
    rw [hfind] at h
    exact foldl_tgoGroupStep_none_id tgo.groups net h

/-- C4: updating a non-infrastructure installation removes its node (emitting
one deletion notification per connection id of the removed node), recomputes
the node, stops with no further effect when the installation no longer
participates, and otherwise emits a node-update notification and, in
advanced mode only, re-resolves that node's connections from the config when
one exists, else by range. -/
theorem update_tgo_primary_path (net : IadsNetwork) (tgo : TheaterGroundObject)
    (mid : IadsNetwork) (removedEvs : List GameUpdateEvent)
    (hrole : (IadsRole.for_category tgo.category).is_comms_or_power = false)
    (huniq : (net.nodes.filter (fun n =>
      decide (n.group.ground_object.original_name = tgo.original_name))).length ≤ 1)
    (hmid : mid = { net with nodes := net.nodes.filter (fun n =>
      !decide (n.group.ground_object.original_name = tgo.original_name)) })
    (hevs : removedEvs = ((net.nodes.filter (fun n =>
        decide (n.group.ground_object.original_name = tgo.original_name))).map
      (fun cn => cn.connections.map
        (fun c => GameUpdateEvent.deleteIadsConnection c.1))).flatten) :
    ((node_for_tgo mid tgo).2 = none →
      update_tgo net tgo = (mid, removedEvs)) ∧
    (∀ i node, (node_for_tgo mid tgo).2 = some i →
      (node_for_tgo mid tgo).1.nodes[i]? = some node →
      update_tgo net tgo =
        ((if net.advanced_iads = true then
            if net.iads_config = [] then
              make_advanced_connections_by_range (node_for_tgo mid tgo).1 i
            else
              add_connections_from_config (node_for_tgo mid tgo).1 i
          else (node_for_tgo mid tgo).1),
          removedEvs ++ [GameUpdateEvent.updateIadsNode node.group.group_name])) := by
  subst hmid
  subst hevs
  have hpres := node_for_tgo_preserves { net with nodes := net.nodes.filter (fun n =>
    !decide (n.group.ground_object.original_name = tgo.original_name)) } tgo
  constructor
  · intro hnone
    have hid := node_for_tgo_none_id _ tgo hnone
    unfold update_tgo
    rw [if_neg (by simp [hrole])]
    simp only [removeNodesScan_eq tgo net.nodes huniq, deleteEventsStep_foldl,
      List.nil_append]
    rcases hx : node_for_tgo { net with nodes := net.nodes.filter (fun n =>
      !decide (n.group.ground_object.original_name = tgo.original_name)) } tgo
      with ⟨net2, idx⟩
    rw [hx] at hnone hid
    simp only at hnone hid
    subst hnone
    simp only [hid]
  · intro i node hsome hnode
    unfold update_tgo
    rw [if_neg (by simp [hrole])]
    simp only [removeNodesScan_eq tgo net.nodes huniq, deleteEventsStep_foldl,
      List.nil_append]
    rcases hx : node_for_tgo { net with nodes := net.nodes.filter (fun n =>
      !decide (n.group.ground_object.original_name = tgo.original_name)) } tgo
      with ⟨net2, idx⟩
    rw [hx] at hsome hnode hpres
    simp only at hsome hnode hpres
    subst hsome
    simp only [hnode]
    by_cases hadv : net.advanced_iads = true
    · have hadv2 : net2.advanced_iads = true := by rw [hpres.1]; exact hadv
      by_cases hcfg : net.iads_config = []
      · have hcfg2 : net2.iads_config.isEmpty = true := by
          rw [hpres.2.1, hcfg]
          rfl
        simp [hadv, hadv2, hcfg, hcfg2]
      · have hcfg2 : net2.iads_config.isEmpty = false := by
          rw [hpres.2.1]
          cases hc : net.iads_config with
          | nil => exact absurd hc hcfg
          | cons a l => rfl
        simp [hadv, hadv2, hcfg, hcfg2]
    · have hadv2 : net2.advanced_iads = false := by
        rw [hpres.1]
        exact Bool.not_eq_true _ ▸ (by simpa using hadv)
      simp [hadv, hadv2]

/-- Witness for C4: updating `S` removes its node (one deletion notification
for connection 5), recreates it with a fresh id, and emits one node-update
notification. -/
theorem update_tgo_primary_path_witness :
    update_tgo exNetC4 exTgoSamPd =
      ({ exNetC4 with
          nodes := [{ group := exGroupSam, connections := [(6, exGroupPd)] }],
          nextId := 7 },
        [GameUpdateEvent.deleteIadsConnection 5,
          GameUpdateEvent.updateIadsNode "S-grp"]) := by
  have h := (update_tgo_primary_path exNetC4 exTgoSamPd _ _ rfl (by decide) rfl rfl).2 0
    { group := exGroupSam, connections := [(6, exGroupPd)] } (by decide) (by decide)
  exact h.trans (by decide)

/-- On a group with an alive unit, the code's name derivation agrees with
the spec-side projection name. -/
theorem dcs_name_alive (group : IadsGroundGroup)
    (h : group.units.any (fun u => u.alive) = true) :
    SkynetNode.dcs_name_for_group group = Except.ok (projectionName group) := by
  by_cases hrole : group.iads_role = IadsRole.ewr ∨ group.iads_role = IadsRole.commandCenter ∨
      group.iads_role = IadsRole.connectionNode ∨ group.iads_role = IadsRole.powerSource
  · have hsome : (group.units.find? (fun u => u.alive)).isSome := by
      rw [List.find?_isSome]
      simpa using List.any_eq_true.mp h
    obtain ⟨u, hu⟩ := Option.isSome_iff_exists.mp hsome
    unfold SkynetNode.dcs_name_for_group projectionName
    rw [if_pos hrole, if_pos hrole, hu]
  · unfold SkynetNode.dcs_name_for_group projectionName
    rw [if_neg hrole, if_neg hrole]

/-- On a group with an alive unit, `from_group` succeeds and agrees with the
spec-side projected node. -/
theorem from_group_alive (group : IadsGroundGroup)
    (h : group.units.any (fun u => u.alive) = true) :
    SkynetNode.from_group group = Except.ok (projectionNode group) := by
  unfold SkynetNode.from_group
  rw [dcs_name_alive group h]
  cases hu : group.units with
  | nil =>
    rw [hu] at h
    cases h
  | cons u0 rest =>
    unfold projectionNode
    rw [hu]
    simp

theorem projectionConnAcc_cons (cull : GroundObjectData → Bool) (player : Bool)
    (init : List (IadsRole × List String)) (c : Nat × IadsGroundGroup)
    (rest : List (Nat × IadsGroundGroup)) :
    projectionConnAcc cull player init (c :: rest) =
      if (c.2.units.any (fun u => u.alive) && c.2.ground_object.is_friendly player
          && !cull c.2.ground_object) = true then
        projectionConnAcc cull player
          (snAppendConn init c.2.iads_role (projectionName c.2)) rest
      else projectionConnAcc cull player init rest := by
  unfold projectionConnAcc
  rw [List.filter_cons]
  by_cases h : (c.2.units.any (fun u => u.alive) && c.2.ground_object.is_friendly player
      && !cull c.2.ground_object) = true
  · rw [if_pos h, if_pos h, List.foldl_cons]
  · rw [if_neg h, if_neg h]

/-- The connection loop of the projection agrees with the spec-side
filter-then-group construction, relative to any starting snapshot. -/
theorem skynetConnLoop_spec (cull : GroundObjectData → Bool)
    (conns : List (Nat × IadsGroundGroup)) (sn : SkynetNode) :
    skynetConnLoop cull sn conns =
      Except.ok
        { sn with connections := projectionConnAcc cull sn.player sn.connections conns } := by
  induction conns generalizing sn with
  | nil => rfl
  | cons c rest ih =>
    unfold skynetConnLoop
    rw [projectionConnAcc_cons]
    by_cases halive : c.2.units.any (fun u => u.alive) = true
    · by_cases hfr : c.2.ground_object.is_friendly sn.player = true
      · by_cases hcu : cull c.2.ground_object = true
        · rw [if_neg (by simp [halive]), if_neg (by simp [hcu]), ih,
            if_neg (by simp [hcu])]
        · rw [if_neg (by simp [halive]), if_pos (by simp [hfr, hcu]),
            dcs_name_alive c.2 halive]
          simp [ih, halive, hfr, hcu]
      · rw [if_neg (by simp [halive]), if_neg (by simp [hfr]), ih,
          if_neg (by simp [hfr])]
    · rw [if_pos (by simp [halive]), ih, if_neg (by simp [halive])]

/-- The node loop of the projection agrees with the spec-side
filter-then-map construction. -/
theorem skynetNodesLoop_spec (cull : GroundObjectData → Bool)
    (nodes : List IadsNetworkNode) :
    skynetNodesLoop cull nodes =
      Except.ok ((nodes.filter (fun n =>
          !cull n.group.ground_object && n.group.units.any (fun u => u.alive))).map
        (fun n =>
          { projectionNode n.group with
              connections :=
                projectionConnAcc cull (projectionNode n.group).player [] n.connections })) := by
  induction nodes with
  | nil => rfl
  | cons node rest ih =>
    unfold skynetNodesLoop
    by_cases hcull : cull node.group.ground_object = true
    · rw [if_pos hcull, ih, List.filter_cons, if_neg (by simp [hcull])]
    · by_cases halive : node.group.units.any (fun u => u.alive) = true
      · rw [if_neg hcull, if_neg (by simp [halive]), from_group_alive node.group halive]
        simp only [skynetConnLoop_spec, ih]
        rw [List.filter_cons, if_pos (by simp [hcull, halive])]
        simp [projectionNode]
      · rw [if_neg hcull, if_pos (by simp [halive]), ih, List.filter_cons,
          if_neg (by simp [halive])]

/-- C8: the projection succeeds on every network and equals the spec-side
view — a node is excluded exactly when the culling predicate flags its
installation or its primary group has no alive unit, and within an included
node a connection is excluded exactly when its group has no alive unit, its
installation is unfriendly to the node's side, or it is culled; excluding
connections never excludes the node. -/
theorem projection_filtering (net : IadsNetwork) (cull : GroundObjectData → Bool) :
    skynet_nodes net cull = Except.ok (projection_spec net cull) := by
  unfold skynet_nodes projection_spec
  exact skynetNodesLoop_spec cull net.nodes

theorem pdConnections_snd (s : Nat) (l : List IadsGroundGroup) :
    (pdConnections s l).map Prod.snd = l.filter (fun g =>
      g.is_iads && decide (0 < g.alive_units)
        && decide (g.iads_role = IadsRole.pointDefense)) := by
  induction l generalizing s with
  | nil => rfl
  | cons g rest ih =>
    by_cases hc : (g.is_iads && decide (0 < g.alive_units)
        && decide (g.iads_role = IadsRole.pointDefense)) = true
    · simp [pdConnections, List.filter_cons, hc, ih]
    · simp [pdConnections, List.filter_cons, hc, ih]

theorem findIdx?_eq_none_imp {α : Type} (p : α → Bool) (l : List α)
    (h : l.findIdx? p = none) : ∀ x ∈ l, p x = false := by
  induction l with
  | nil => simp
  | cons x xs ih =>
    rw [List.findIdx?_cons] at h
    by_cases hp : p x = true
    · rw [if_pos hp] at h
      cases h
    · rw [if_neg hp] at h
      intro y hy
      rcases List.mem_cons.mp hy with h1 | h1
      · subst h1
        simpa using hp
      · have h2 : xs.findIdx? p = none := by
          rw [List.findIdx?_succ] at h
          cases hfx : xs.findIdx? p with
          | none => rfl
          | some i =>
            rw [hfx] at h
            simp at h
        exact ih h2 y h1

/-- On groups that all belong to an installation named `nm`, with no node of
that name present, the `node_for_tgo` scan either leaves the node list
unchanged or appends exactly one node anchored on `nm`. -/
theorem foldl_tgoGroupStep_shape (nm : String) (l : List IadsGroundGroup) (net : IadsNetwork)
    (hwf : ∀ g ∈ l, g.ground_object.original_name = nm)
    (hnone : ∀ cn ∈ net.nodes, ¬ cn.group.ground_object.original_name = nm) :
    (l.foldl tgoGroupStep (net, none)).1.nodes = net.nodes ∨
    ∃ nd, (l.foldl tgoGroupStep (net, none)).1.nodes = net.nodes ++ [nd]
      ∧ nd.group.ground_object.original_name = nm := by
  induction l generalizing net with
  | nil => exact Or.inl rfl
  | cons g rest ih =>
    rw [List.foldl_cons]
    by_cases h1 : (g.is_iads && decide (0 < g.alive_units)) = true
    · by_cases hp : g.iads_role.participate = true
      · have hgname : g.ground_object.original_name = nm := hwf g (List.mem_cons_self g rest)
        have hfind : net.nodes.findIdx? (fun cn => decide (cn.group = g)) = none := by
          apply findIdx?_eq_none
          intro cn hcn
          simp only [decide_eq_false_iff_not]
          intro he
          apply hnone cn hcn
          rw [he]
          exact hgname
        have hstep : tgoGroupStep (net, none) g =
            ({ net with nodes := net.nodes ++ [{ group := g, connections := [] }] },
              some net.nodes.length) := by
          unfold tgoGroupStep node_for_group
          simp [h1, hp, hfind]
        rw [hstep, foldl_tgoGroupStep_some]
        right
        refine ⟨{ group := g, connections := pdConnections net.nextId rest }, ?_, hgname⟩
        simp only [updateAt_append_length, List.nil_append]
      · have hstep : tgoGroupStep (net, none) g = (net, none) := by
          unfold tgoGroupStep
          simp [h1, hp]
        rw [hstep]
        exact ih net (fun g' hg' => hwf g' (List.mem_cons_of_mem g hg')) hnone
    · have hstep : tgoGroupStep (net, none) g = (net, none) := by
        unfold tgoGroupStep
        rw [if_neg h1]
      rw [hstep]
      exact ih net (fun g' hg' => hwf g' (List.mem_cons_of_mem g hg')) hnone

/-- `node_for_tgo` on a well-formed installation either leaves the node
list unchanged or — when no node of the installation's name exists —
appends exactly one node anchored on the installation. -/
theorem node_for_tgo_nodes_shape (net : IadsNetwork) (tgo : TheaterGroundObject)
    (hwf : ∀ g ∈ tgo.groups, g.ground_object = tgo.data) :
    (node_for_tgo net tgo).1.nodes = net.nodes ∨
    (tgo.original_name ∉ nodeNames net ∧
      ∃ nd, (node_for_tgo net tgo).1.nodes = net.nodes ++ [nd]
        ∧ nd.group.ground_object.original_name = tgo.original_name) := by
  unfold node_for_tgo
  cases hfind : net.nodes.findIdx? (fun cn =>
      decide (cn.group.ground_object.original_name = tgo.original_name)) with
  | some i => exact Or.inl rfl
  | none =>
    have hnotin : tgo.original_name ∉ nodeNames net := by
      intro hmem
      obtain ⟨cn, hcn, he⟩ := List.mem_map.mp hmem
      have h := findIdx?_eq_none_imp _ _ hfind cn hcn
      simp [he] at h
    rcases foldl_tgoGroupStep_shape tgo.original_name tgo.groups net
      (fun g hg => by rw [hwf g hg]; rfl)
      (fun cn hcn => by simpa using findIdx?_eq_none_imp _ _ hfind cn hcn)
      with h | ⟨nd, h1, h2⟩
    · exact Or.inl h
    · exact Or.inr ⟨hnotin, nd, h1, h2⟩

theorem basicIadsStep_shape (netc : IadsNetwork) (p : String × TheaterGroundObject)
    (hwf : ∀ g ∈ p.2.groups, g.ground_object = p.2.data) :
    (basicIadsStep netc p).nodes = netc.nodes ∨
    ∃ nd, (basicIadsStep netc p).nodes = netc.nodes ++ [nd]
      ∧ nd.group.ground_object.original_name = p.2.original_name := by
  unfold basicIadsStep
  by_cases hk : p.2.kind = GoKind.iadsGround
  · rw [if_pos hk]
    rcases node_for_tgo_nodes_shape netc p.2 hwf with h | ⟨_, nd, h1, h2⟩
    · exact Or.inl h
    · exact Or.inr ⟨nd, h1, h2⟩
  · rw [if_neg hk]
    exact Or.inl rfl

/-- Over a registry whose entries are keyed by their installation's name,
the basic initializer only appends nodes, each anchored on the key of some
processed entry. -/
theorem basicFold_shape (l : List (String × TheaterGroundObject)) (netc : IadsNetwork)
    (hwf : ∀ p ∈ l, (∀ g ∈ p.2.groups, g.ground_object = p.2.data)
      ∧ p.1 = p.2.original_name) :
    ∃ app, (l.foldl basicIadsStep netc).nodes = netc.nodes ++ app
      ∧ ∀ nd ∈ app, ∃ p ∈ l, nd.group.ground_object.original_name = p.1 := by
  induction l generalizing netc with
  | nil => exact ⟨[], by simp, by simp⟩
  | cons p rest ih =>
    rw [List.foldl_cons]
    obtain ⟨app1, h1, hn1⟩ := ih (basicIadsStep netc p)
      (fun q hq => hwf q (List.mem_cons_of_mem p hq))
    rcases basicIadsStep_shape netc p (hwf p (List.mem_cons_self p rest)).1 with h0 | h0
    · refine ⟨app1, by rw [h1, h0], ?_⟩
      intro nd hnd
      obtain ⟨q, hq, he⟩ := hn1 nd hnd
      exact ⟨q, List.mem_cons_of_mem p hq, he⟩
    · obtain ⟨nd, h0, hname⟩ := h0
      refine ⟨nd :: app1, ?_, ?_⟩
      · rw [h1, h0]
        simp
      · intro nd2 hnd2
        rcases List.mem_cons.mp hnd2 with he | he
        · subst he
          refine ⟨p, List.mem_cons_self p rest, ?_⟩
          rw [hname, ← (hwf p (List.mem_cons_self p rest)).2]
        · obtain ⟨q, hq, he2⟩ := hn1 nd2 he
          exact ⟨q, List.mem_cons_of_mem p hq, he2⟩

/-- Running the basic initializer over a registry with distinct keys, none of
which already has a node, creates — for an IADS ground entry whose first
participating living group is `g` — exactly one node anchored on that entry,
with primary group `g` and connections exactly the later living
point-defense groups. -/
theorem basicFold_creates (lpre lpost : List (String × TheaterGroundObject))
    (p : String × TheaterGroundObject) (netc : IadsNetwork)
    (hwf : ∀ q ∈ lpre ++ p :: lpost,
      (∀ g ∈ q.2.groups, g.ground_object = q.2.data) ∧ q.1 = q.2.original_name)
    (hkeys : ((lpre ++ p :: lpost).map Prod.fst).Nodup)
    (hdisj : ∀ q ∈ lpre ++ p :: lpost, q.1 ∉ nodeNames netc)
    (hkind : p.2.kind = GoKind.iadsGround)
    (pre : List IadsGroundGroup) (g : IadsGroundGroup) (post : List IadsGroundGroup)
    (hsplit : p.2.groups = pre ++ g :: post)
    (hprefail : ∀ g' ∈ pre,
      ¬(g'.is_iads = true ∧ 0 < g'.alive_units ∧ g'.iads_role.participate = true))
    (hgi : g.is_iads = true) (hga : 0 < g.alive_units)
    (hgp : g.iads_role.participate = true) :
    ∃ nd ∈ ((lpre ++ p :: lpost).foldl basicIadsStep netc).nodes,
      nd.group = g
      ∧ nd.connections.map Prod.snd = post.filter (fun g' =>
          g'.is_iads && decide (0 < g'.alive_units)
            && decide (g'.iads_role = IadsRole.pointDefense))
      ∧ (nodeNames ((lpre ++ p :: lpost).foldl basicIadsStep netc)).count p.1 = 1 := by
  have hwp := hwf p (List.mem_append_right _ (List.mem_cons_self p lpost))
  have hp1name : p.1 = p.2.original_name := hwp.2
  have hg_go : g.ground_object = p.2.data := hwp.1 g (by rw [hsplit]; simp)
  rw [List.map_append, List.map_cons] at hkeys
  have hnd := List.nodup_append.mp hkeys
  have hkey_pre : p.1 ∉ lpre.map Prod.fst :=
    fun hmem => hnd.2.2 hmem (List.mem_cons_self _ _)
  have hkey_post : p.1 ∉ lpost.map Prod.fst := (List.nodup_cons.mp hnd.2.1).1
  rw [List.foldl_append, List.foldl_cons]
  set net1 := lpre.foldl basicIadsStep netc with hnet1
  obtain ⟨app1, h1, hn1⟩ := basicFold_shape lpre netc
    (fun q hq => hwf q (List.mem_append_left _ hq))
  have hfound : p.1 ∉ nodeNames net1 := by
    intro hmem
    unfold nodeNames at hmem
    rw [hnet1, h1, List.map_append] at hmem
    rcases List.mem_append.mp hmem with hm | hm
    · exact hdisj p (List.mem_append_right _ (List.mem_cons_self p lpost)) hm
    · obtain ⟨nd, hnd2, hname⟩ := List.mem_map.mp hm
      obtain ⟨q, hq, he⟩ := hn1 nd hnd2
      apply hkey_pre
      rw [show p.1 = q.1 by rw [← hname, he]]
      exact List.mem_map_of_mem Prod.fst hq
  have hfind : net1.nodes.findIdx? (fun cn =>
      decide (cn.group.ground_object.original_name = p.2.original_name)) = none := by
    apply findIdx?_eq_none
    intro cn hcn
    simp only [decide_eq_false_iff_not]
    intro he
    apply hfound
    exact List.mem_map.mpr ⟨cn, hcn, he.trans hp1name.symm⟩
  have hgfresh : ∀ cn ∈ net1.nodes, cn.group ≠ g := by
    intro cn hcn he
    apply hfound
    have hname : cn.group.ground_object.original_name = p.2.original_name := by
      rw [he, hg_go]
      rfl
    exact List.mem_map.mpr ⟨cn, hcn, hname.trans hp1name.symm⟩
  have hstep := node_for_tgo_creates net1 p.2 pre post g
    hsplit hprefail hgi hga hgp hfind hgfresh
  have hbstep : basicIadsStep net1 p = (node_for_tgo net1 p.2).1 := by
    unfold basicIadsStep
    rw [if_pos hkind]
  rw [hbstep]
  simp only [hstep]
  obtain ⟨app2, h3, hn3⟩ := basicFold_shape lpost ((node_for_tgo net1 p.2).1)
    (fun q hq => hwf q (List.mem_append_right _ (List.mem_cons_of_mem p hq)))
  simp only [hstep] at h3
  refine ⟨{ group := g, connections := pdConnections net1.nextId post }, ?_, rfl, ?_, ?_⟩
  · rw [h3]
    apply List.mem_append_left
    simp
  · exact pdConnections_snd _ _
  · unfold nodeNames
    rw [h3]
    simp only [List.map_append, List.count_append, List.map_cons, List.map_nil]
    have hc1 : (net1.nodes.map (fun n => n.group.ground_object.original_name)).count p.1
        = 0 := by
      rw [List.count_eq_zero]
      exact hfound
    have hgname : g.ground_object.original_name = p.1 := by
      rw [hg_go, hp1name]
      rfl
    have hc3 : (app2.map (fun n => n.group.ground_object.original_name)).count p.1 = 0 := by
      rw [List.count_eq_zero]
      intro hmem
      obtain ⟨nd, hnd2, hname⟩ := List.mem_map.mp hmem
      obtain ⟨q, hq, he⟩ := hn3 nd hnd2
      apply hkey_post
      rw [show p.1 = q.1 by rw [← hname, he]]
      exact List.mem_map_of_mem Prod.fst hq
    rw [hc1, hc3]
    simp [hgname, List.count_cons]

/-- C5 (amended): when the advanced construction phase produces no nodes,
initialization falls back to basic mode, which produces — for each IADS
ground installation of the registry whose first participating living IADS
group is `g` — exactly one node, anchored on `g`, whose connections are
exactly the installation's own later living IADS point-defense groups. -/
theorem basic_fallback (net : IadsNetwork) (gos : List TheaterGroundObject)
    (hwf : ∀ p ∈ (initialize_network_phase net gos).ground_objects,
      (∀ g ∈ p.2.groups, g.ground_object = p.2.data) ∧ p.1 = p.2.original_name)
    (hkeys : (((initialize_network_phase net gos).ground_objects).map Prod.fst).Nodup)
    (hempty : (initialize_network_phase net gos).nodes = []) :
    initialize_network net gos = initialize_basic_iads (initialize_network_phase net gos) ∧
    ∀ p ∈ (initialize_network_phase net gos).ground_objects, p.2.kind = GoKind.iadsGround →
      ∀ pre g post, p.2.groups = pre ++ g :: post →
        (∀ g' ∈ pre,
          ¬(g'.is_iads = true ∧ 0 < g'.alive_units ∧ g'.iads_role.participate = true)) →
        g.is_iads = true → 0 < g.alive_units → g.iads_role.participate = true →
        ∃ nd ∈ (initialize_network net gos).nodes,
          nd.group = g
          ∧ nd.connections.map Prod.snd = post.filter (fun g' =>
              g'.is_iads && decide (0 < g'.alive_units)
                && decide (g'.iads_role = IadsRole.pointDefense))
          ∧ (nodeNames (initialize_network net gos)).count p.1 = 1 := by
  have htrig : initialize_network net gos
      = initialize_basic_iads (initialize_network_phase net gos) := by
    unfold initialize_network
    rw [if_pos (by rw [hempty]; rfl)]
  refine ⟨htrig, ?_⟩
  intro p hp hkind pre g post hsplit hprefail hgi hga hgp
  obtain ⟨lpre, lpost, hl⟩ := List.append_of_mem hp
  rw [htrig]
  unfold initialize_basic_iads
  rw [hl]
  have hdisj : ∀ q ∈ lpre ++ p :: lpost,
      q.1 ∉ nodeNames (initialize_network_phase net gos) := by
    intro q hq
    unfold nodeNames
    rw [hempty]
    simp
  exact basicFold_creates lpre lpost p (initialize_network_phase net gos)
    (by rw [← hl]; exact hwf) (by rw [← hl]; exact hkeys) hdisj hkind pre g post hsplit
    hprefail hgi hga hgp

/-- Counterexample for C5 as stated: the basic fallback (advanced mode,
config naming an absent installation) gives the SAM installation `S` a node
with one connection — its own alive point-defense group — not zero
connections. -/
theorem basic_fallback_cex :
    (initialize_network (mkIadsNetwork true [IadsConfigEntry.bare "X"]) [exTgoSamPd]).nodes
      = [{ group := exGroupSam, connections := [(0, exGroupPd)] }] := by decide

/-- Witness for C5 on the same concrete campaign: exactly one node is
produced for `S`, anchored on its SAM group, trailed by its point defense. -/
theorem basic_fallback_witness :
    ∃ nd ∈ (initialize_network (mkIadsNetwork true [IadsConfigEntry.bare "X"])
        [exTgoSamPd]).nodes,
      nd.group = exGroupSam
      ∧ nd.connections.map Prod.snd = [exGroupPd]
      ∧ (nodeNames (initialize_network (mkIadsNetwork true [IadsConfigEntry.bare "X"])
          [exTgoSamPd])).count "S" = 1 := by
  have h := (basic_fallback (mkIadsNetwork true [IadsConfigEntry.bare "X"]) [exTgoSamPd]
    (by decide) (by decide) (by decide)).2 ("S", exTgoSamPd) (by decide) rfl
    [] exGroupSam [exGroupPd] rfl (by simp) rfl (by decide) rfl
  obtain ⟨nd, hmem, h1, h2, h3⟩ := h
  exact ⟨nd, hmem, h1, by rw [h2]; decide, h3⟩

theorem nodeNames_eq (net : IadsNetwork) :
    nodeNames net = (nodeGroups net).map (fun g => g.ground_object.original_name) := by
  simp [nodeNames, nodeGroups, List.map_map]

theorem add_connection_for_tgo_at_skeleton (net : IadsNetwork) (i : Nat)
    (tgo : TheaterGroundObject) :
    nodeGroups (add_connection_for_tgo_at net i tgo) = nodeGroups net
      ∧ (add_connection_for_tgo_at net i tgo).ground_objects = net.ground_objects := by
  have h := addGroupConnStep_foldl_skeleton tgo.groups net i
  exact ⟨h.1, h.2.1⟩

theorem rangeCandidateStep_skeleton (net : IadsNetwork) (i : Nat)
    (tgoData : GroundObjectData) (nearby : TheaterGroundObject) :
    nodeGroups (rangeCandidateStep net i tgoData nearby) = nodeGroups net
      ∧ (rangeCandidateStep net i tgoData nearby).ground_objects = net.ground_objects := by
  unfold rangeCandidateStep
  by_cases h1 : (!(IadsRole.for_category nearby.category).is_comms_or_power
      || decide (nearby.original_name = tgoData.original_name)) = true
  · rw [if_pos h1]
    exact ⟨rfl, rfl⟩
  · rw [if_neg h1]
    cases hi : net.nodes[i]? with
    | none => exact ⟨rfl, rfl⟩
    | some node =>
      simp only
      by_cases h2 : (decide (distance_to_point nearby.position tgoData.position
            ≤ (IadsRole.for_category nearby.category).connection_range)
          && IadsNetwork.is_friendly node nearby) = true
      · rw [if_pos h2]
        exact add_connection_for_tgo_at_skeleton net i nearby
      · rw [if_neg h2]
        exact ⟨rfl, rfl⟩

theorem rangeFold_skeleton (l : List (String × TheaterGroundObject)) (net : IadsNetwork)
    (i : Nat) (tgoData : GroundObjectData) :
    nodeGroups (l.foldl (fun net p => rangeCandidateStep net i tgoData p.2) net)
        = nodeGroups net
      ∧ (l.foldl (fun net p => rangeCandidateStep net i tgoData p.2) net).ground_objects
        = net.ground_objects := by
  induction l generalizing net with
  | nil => exact ⟨rfl, rfl⟩
  | cons p rest ih =>
    rw [List.foldl_cons]
    obtain ⟨h1, h2⟩ := ih (rangeCandidateStep net i tgoData p.2)
    have h0 := rangeCandidateStep_skeleton net i tgoData p.2
    exact ⟨h1.trans h0.1, h2.trans h0.2⟩

theorem make_advanced_connections_by_range_skeleton (net : IadsNetwork) (i : Nat) :
    nodeGroups (make_advanced_connections_by_range net i) = nodeGroups net
      ∧ (make_advanced_connections_by_range net i).ground_objects = net.ground_objects := by
  unfold make_advanced_connections_by_range
  cases hi : net.nodes[i]? with
  | none => exact ⟨rfl, rfl⟩
  | some node => exact rangeFold_skeleton net.ground_objects net i node.group.ground_object

theorem configConnFold_skeleton (cs : List String) (net : IadsNetwork) (i : Nat) :
    nodeGroups (cs.foldl (fun net secondary_node =>
        match dictLookup net.ground_objects secondary_node with
        | some go => add_connection_for_tgo_at net i go
        | none => net) net) = nodeGroups net
      ∧ (cs.foldl (fun net secondary_node =>
        match dictLookup net.ground_objects secondary_node with
        | some go => add_connection_for_tgo_at net i go
        | none => net) net).ground_objects = net.ground_objects := by
  induction cs generalizing net with
  | nil => exact ⟨rfl, rfl⟩
  | cons c rest ih =>
    rw [List.foldl_cons]
    have h0 : nodeGroups (match dictLookup net.ground_objects c with
          | some go => add_connection_for_tgo_at net i go
          | none => net) = nodeGroups net
        ∧ (match dictLookup net.ground_objects c with
          | some go => add_connection_for_tgo_at net i go
          | none => net).ground_objects = net.ground_objects := by
      cases hl : dictLookup net.ground_objects c with
      | none => exact ⟨rfl, rfl⟩
      | some go => exact add_connection_for_tgo_at_skeleton net i go
    obtain ⟨h1, h2⟩ := ih (match dictLookup net.ground_objects c with
      | some go => add_connection_for_tgo_at net i go
      | none => net)
    exact ⟨h1.trans h0.1, h2.trans h0.2⟩

theorem add_connections_from_config_skeleton (net : IadsNetwork) (i : Nat) :
    nodeGroups (add_connections_from_config net i) = nodeGroups net
      ∧ (add_connections_from_config net i).ground_objects = net.ground_objects := by
  unfold add_connections_from_config
  cases hi : net.nodes[i]? with
  | none => exact ⟨rfl, rfl⟩
  | some node =>
    simp only
    cases hl : dictLookup net.iads_config node.group.ground_object.original_name with
    | none => exact ⟨rfl, rfl⟩
    | some connections => exact configConnFold_skeleton connections net i

theorem updateNetworkStep_foldl_skeleton (tgo : TheaterGroundObject) (l : List Nat)
    (acc : IadsNetwork × List GameUpdateEvent) :
    nodeGroups (l.foldl (updateNetworkStep tgo) acc).1 = nodeGroups acc.1
      ∧ (l.foldl (updateNetworkStep tgo) acc).1.ground_objects = acc.1.ground_objects := by
  induction l generalizing acc with
  | nil => exact ⟨rfl, rfl⟩
  | cons j rest ih =>
    rw [List.foldl_cons]
    have h0 : nodeGroups (updateNetworkStep tgo acc j).1 = nodeGroups acc.1
        ∧ (updateNetworkStep tgo acc j).1.ground_objects = acc.1.ground_objects := by
      unfold updateNetworkStep
      cases hb : acc.1.nodes[j]? with
      | none => exact ⟨rfl, rfl⟩
      | some node =>
        simp only
        by_cases hcond : (decide (distance_to_point node.group.ground_object.position
              tgo.position < (IadsRole.for_category tgo.category).connection_range)
            && IadsNetwork.is_friendly node tgo) = true
        · rw [if_pos hcond]
          exact add_connection_for_tgo_at_skeleton acc.1 j tgo
        · rw [if_neg hcond]
          exact ⟨rfl, rfl⟩
    obtain ⟨h1, h2⟩ := ih (updateNetworkStep tgo acc j)
    exact ⟨h1.trans h0.1, h2.trans h0.2⟩

theorem update_network_skeleton (net : IadsNetwork) (tgo : TheaterGroundObject) :
    nodeGroups (update_network net tgo).1 = nodeGroups net
      ∧ (update_network net tgo).1.ground_objects = net.ground_objects := by
  unfold update_network
  by_cases hdead : tgo.is_dead = true
  · rw [if_pos hdead]
    exact ⟨rfl, rfl⟩
  · rw [if_neg hdead]
    by_cases hrole : (!(IadsRole.for_category tgo.category).is_comms_or_power) = true
    · rw [if_pos hrole]
      exact ⟨rfl, rfl⟩
    · rw [if_neg hrole]
      exact updateNetworkStep_foldl_skeleton tgo (List.range net.nodes.length) (net, [])

theorem update_iads_comms_and_power_skeleton (net : IadsNetwork)
    (tgo : TheaterGroundObject) :
    nodeGroups (update_iads_comms_and_power net tgo).1 = nodeGroups net
      ∧ (update_iads_comms_and_power net tgo).1.ground_objects = net.ground_objects := by
  unfold update_iads_comms_and_power
  rw [commsScanStep_foldl]
  have hmap : nodeGroups { net with
      nodes := [] ++ net.nodes.map (fun n => (update_node_for_comms n tgo).1) }
      = nodeGroups net := by
    unfold nodeGroups
    simp only [List.nil_append, List.map_map]
    apply List.map_congr_left
    intro n hn
    show ((update_node_for_comms n tgo).1).group = n.group
    rw [update_node_for_comms_spec]
  by_cases hcfg : net.iads_config = []
  · simp only [List.nil_append]
    rw [if_pos hcfg]
    have h := update_network_skeleton { net with
      nodes := net.nodes.map (fun n => (update_node_for_comms n tgo).1) } tgo
    constructor
    · rw [h.1]
      simpa using hmap
    · exact h.2
  · simp only [List.nil_append]
    rw [if_neg hcfg]
    constructor
    · simpa using hmap
    · rfl

theorem dictLookup_mem {β : Type} (l : List (String × β)) (k : String) (v : β)
    (h : dictLookup l k = some v) : (k, v) ∈ l := by
  unfold dictLookup at h
  cases hf : l.find? (fun p => decide (p.1 = k)) with
  | none =>
    rw [hf] at h
    cases h
  | some p =>
    rw [hf] at h
    simp at h
    have hmem := List.mem_of_find?_eq_some hf
    have hkey : p.1 = k := by
      have h2 := List.find?_some hf
      simp at h2
      exact h2
    have hp : p = (k, v) := by
      cases p
      simp only [Prod.mk.injEq]
      exact ⟨hkey, h⟩
    rw [← hp]
    exact hmem

theorem node_for_tgo_inv (net : IadsNetwork) (tgo : TheaterGroundObject)
    (hwf : TgoWf tgo) (hnn : (nodeNames net).Nodup) :
    (nodeNames (node_for_tgo net tgo).1).Nodup := by
  rcases node_for_tgo_nodes_shape net tgo hwf with h | ⟨hnotin, nd, h1, h2⟩
  · unfold nodeNames
    rw [h]
    exact hnn
  · unfold nodeNames
    rw [h1, List.map_append]
    rw [List.nodup_append]
    refine ⟨hnn, by simp, ?_⟩
    intro a ha hb
    simp only [List.map_cons, List.map_nil, List.mem_cons, List.not_mem_nil,
      or_false] at hb
    rw [hb, h2] at ha
    exact hnotin ha

theorem configInitStep_inv (net : IadsNetwork) (primary : String)
    (hreg : RegistryWf net) (hnn : (nodeNames net).Nodup) :
    (nodeNames (configInitStep net primary)).Nodup
      ∧ (configInitStep net primary).ground_objects = net.ground_objects := by
  unfold configInitStep
  cases hl : dictLookup net.ground_objects primary with
  | none => exact ⟨hnn, rfl⟩
  | some go =>
    have hgo : TgoWf go := (hreg (primary, go) (dictLookup_mem _ _ _ hl)).1
    rcases hx : node_for_tgo net go with ⟨net2, idx⟩
    have hpres := node_for_tgo_preserves net go
    rw [hx] at hpres
    have hnn2 : (nodeNames net2).Nodup := by
      have h := node_for_tgo_inv net go hgo hnn
      rw [hx] at h
      exact h
    simp only [hx]
    cases idx with
    | none => exact ⟨hnn2, hpres.2.2⟩
    | some i =>
      show (nodeNames (add_connections_from_config net2 i)).Nodup
        ∧ (add_connections_from_config net2 i).ground_objects = net.ground_objects
      have hsk := add_connections_from_config_skeleton net2 i
      refine ⟨?_, ?_⟩
      · rw [nodeNames_eq, hsk.1, ← nodeNames_eq]
        exact hnn2
      · rw [hsk.2]
        exact hpres.2.2

theorem rangeInitStep_inv (net : IadsNetwork) (p : String × TheaterGroundObject)
    (hwf : TgoWf p.2) (hnn : (nodeNames net).Nodup) :
    (nodeNames (rangeInitStep net p)).Nodup
      ∧ (rangeInitStep net p).ground_objects = net.ground_objects := by
  unfold rangeInitStep
  by_cases hcond : (decide (p.2.kind = GoKind.iadsGround) || decide (p.2.kind = GoKind.naval)
      || (decide (p.2.kind = GoKind.iadsBuilding)
        && decide (IadsRole.for_category p.2.category = IadsRole.commandCenter))) = true
  · rw [if_pos hcond]
    rcases hx : node_for_tgo net p.2 with ⟨net2, idx⟩
    have hpres := node_for_tgo_preserves net p.2
    rw [hx] at hpres
    have hnn2 : (nodeNames net2).Nodup := by
      have h := node_for_tgo_inv net p.2 hwf hnn
      rw [hx] at h
      exact h
    try simp only [hx]
    cases idx with
    | none => exact ⟨hnn2, hpres.2.2⟩
    | some i =>
      show (nodeNames (make_advanced_connections_by_range net2 i)).Nodup
        ∧ (make_advanced_connections_by_range net2 i).ground_objects = net.ground_objects
      have hsk := make_advanced_connections_by_range_skeleton net2 i
      refine ⟨?_, ?_⟩
      · rw [nodeNames_eq, hsk.1, ← nodeNames_eq]
        exact hnn2
      · rw [hsk.2]
        exact hpres.2.2
  · rw [if_neg hcond]
    exact ⟨hnn, rfl⟩

theorem basicIadsStep_inv (net : IadsNetwork) (p : String × TheaterGroundObject)
    (hwf : TgoWf p.2) (hnn : (nodeNames net).Nodup) :
    (nodeNames (basicIadsStep net p)).Nodup
      ∧ (basicIadsStep net p).ground_objects = net.ground_objects := by
  unfold basicIadsStep
  by_cases hk : p.2.kind = GoKind.iadsGround
  · rw [if_pos hk]
    have hpres := node_for_tgo_preserves net p.2
    exact ⟨node_for_tgo_inv net p.2 hwf hnn, hpres.2.2⟩
  · rw [if_neg hk]
    exact ⟨hnn, rfl⟩

/-- With pairwise-distinct anchor names, at most one node of the list is
anchored on any given installation name. -/
theorem filterNames_length_le_one (l : List IadsNetworkNode) (x : String)
    (h : (l.map (fun n => n.group.ground_object.original_name)).Nodup) :
    (l.filter (fun n =>
      decide (n.group.ground_object.original_name = x))).length ≤ 1 := by
  induction l with
  | nil => simp
  | cons n rest ih =>
    rw [List.map_cons, List.nodup_cons] at h
    by_cases hm : n.group.ground_object.original_name = x
    · rw [List.filter_cons, if_pos (by simpa using hm)]
      have hrest : rest.filter (fun m =>
          decide (m.group.ground_object.original_name = x)) = [] := by
        rw [List.filter_eq_nil_iff]
        intro m hmem hx2
        apply h.1
        rw [hm]
        exact List.mem_map.mpr ⟨m, hmem, by simpa using hx2⟩
      rw [hrest]
      simp
    · rw [List.filter_cons, if_neg (by simpa using hm)]
      exact ih h.2

/-- `update_tgo` keeps the anchor names pairwise distinct and leaves the
registry untouched, for a well-formed changed installation. -/
theorem update_tgo_inv (net : IadsNetwork) (tgo : TheaterGroundObject)
    (hwf : TgoWf tgo) (hnn : (nodeNames net).Nodup) :
    (nodeNames (update_tgo net tgo).1).Nodup
      ∧ (update_tgo net tgo).1.ground_objects = net.ground_objects := by
  unfold update_tgo
  by_cases hc : (net.advanced_iads
      && (IadsRole.for_category tgo.category).is_comms_or_power) = true
  · rw [if_pos hc]
    have h := update_iads_comms_and_power_skeleton net tgo
    constructor
    · rw [nodeNames_eq, h.1, ← nodeNames_eq]
      exact hnn
    · exact h.2
  · rw [if_neg hc]
    have huniq : (net.nodes.filter (fun n =>
        decide (n.group.ground_object.original_name = tgo.original_name))).length ≤ 1 :=
      filterNames_length_le_one net.nodes tgo.original_name hnn
    simp only [removeNodesScan_eq tgo net.nodes huniq, deleteEventsStep_foldl,
      List.nil_append]
    have hnnmid : (nodeNames { net with nodes := net.nodes.filter (fun n =>
        !decide (n.group.ground_object.original_name = tgo.original_name)) }).Nodup := by
      unfold nodeNames
      exact List.Nodup.sublist (List.Sublist.map _ (List.filter_sublist _)) hnn
    split
    next net2 heq =>
      have hpres := node_for_tgo_preserves { net with nodes := net.nodes.filter (fun n =>
        !decide (n.group.ground_object.original_name = tgo.original_name)) } tgo
      rw [heq] at hpres
      have hnn2 : (nodeNames net2).Nodup := by
        have h := node_for_tgo_inv _ tgo hwf hnnmid
        rw [heq] at h
        exact h
      exact ⟨hnn2, hpres.2.2⟩
    next net2 i heq =>
      have hpres := node_for_tgo_preserves { net with nodes := net.nodes.filter (fun n =>
        !decide (n.group.ground_object.original_name = tgo.original_name)) } tgo
      rw [heq] at hpres
      have hnn2 : (nodeNames net2).Nodup := by
        have h := node_for_tgo_inv _ tgo hwf hnnmid
        rw [heq] at h
        exact h
      split
      next hnode => exact ⟨hnn2, hpres.2.2⟩
      next node hnode =>
        by_cases hadv : net2.advanced_iads = true
        · by_cases hcfg : net2.iads_config.isEmpty = true
          · rw [if_pos hadv, if_neg (by simp [hcfg])]
            have hsk := make_advanced_connections_by_range_skeleton net2 i
            refine ⟨?_, hsk.2.trans hpres.2.2⟩
            rw [nodeNames_eq, hsk.1, ← nodeNames_eq]
            exact hnn2
          · have hne : net2.iads_config.isEmpty = false := by
              revert hcfg
              cases net2.iads_config.isEmpty <;> simp
            rw [if_pos hadv, if_pos (by rw [hne]; rfl)]
            have hsk := add_connections_from_config_skeleton net2 i
            refine ⟨?_, hsk.2.trans hpres.2.2⟩
            rw [nodeNames_eq, hsk.1, ← nodeNames_eq]
            exact hnn2
        · rw [if_neg hadv]
          exact ⟨hnn2, hpres.2.2⟩

theorem dictInsert_mem {β : Type} (l : List (String × β)) (k : String) (v : β)
    (p : String × β) (hp : p ∈ dictInsert l k v) : p ∈ l ∨ p = (k, v) := by
  unfold dictInsert at hp
  by_cases hf : (l.find? (fun q => decide (q.1 = k))).isSome = true
  · rw [if_pos hf] at hp
    obtain ⟨q, hq, he⟩ := List.mem_map.mp hp
    by_cases hqk : q.1 = k
    · right
      rw [← he, if_pos hqk]
    · left
      rw [← he, if_neg hqk]
      exact hq
  · rw [if_neg hf] at hp
    rcases List.mem_append.mp hp with h | h
    · exact Or.inl h
    · right
      simpa using h

/-- Every entry of the registry after the population fold of
`initialize_network` came from the previous registry or is an installation
of the batch keyed by its identity name. -/
theorem registryFold_mem (gos : List TheaterGroundObject)
    (l : List (String × TheaterGroundObject)) (p : String × TheaterGroundObject)
    (hp : p ∈ gos.foldl
      (fun d (tgo : TheaterGroundObject) => dictInsert d tgo.original_name tgo) l) :
    p ∈ l ∨ ∃ tgo ∈ gos, p = (tgo.original_name, tgo) := by
  induction gos generalizing l with
  | nil => exact Or.inl hp
  | cons t rest ih =>
    rw [List.foldl_cons] at hp
    rcases ih _ hp with h | ⟨tgo, htgo, he⟩
    · rcases dictInsert_mem _ _ _ _ h with h2 | h2
      · exact Or.inl h2
      · exact Or.inr ⟨t, List.mem_cons_self t rest, h2⟩
    · exact Or.inr ⟨tgo, List.mem_cons_of_mem t htgo, he⟩

theorem initialize_network_phase_eq (net : IadsNetwork)
    (gos : List TheaterGroundObject) :
    initialize_network_phase net gos = initDispatch (regExtend net gos) := rfl

theorem regExtend_wf (net : IadsNetwork) (gos : List TheaterGroundObject)
    (hreg : RegistryWf net) (hg : ∀ tgo ∈ gos, TgoWf tgo) :
    RegistryWf (regExtend net gos) := by
  intro p hp
  simp only [regExtend, regExtendFold] at hp
  rcases registryFold_mem gos net.ground_objects p hp with h | ⟨tgo, htgo, he⟩
  · exact hreg p h
  · subst he
    exact ⟨hg tgo htgo, rfl⟩

theorem configFold_inv (keys : List String) (net : IadsNetwork)
    (hreg : RegistryWf net) (hnn : (nodeNames net).Nodup) :
    (nodeNames (keys.foldl configInitStep net)).Nodup
      ∧ (keys.foldl configInitStep net).ground_objects = net.ground_objects := by
  induction keys generalizing net with
  | nil => exact ⟨hnn, rfl⟩
  | cons k rest ih =>
    rw [List.foldl_cons]
    have h1 := configInitStep_inv net k hreg hnn
    have hreg2 : RegistryWf (configInitStep net k) := by
      intro p hp
      rw [h1.2] at hp
      exact hreg p hp
    have h2 := ih (configInitStep net k) hreg2 h1.1
    exact ⟨h2.1, h2.2.trans h1.2⟩

theorem rangeFold_inv (l : List (String × TheaterGroundObject)) (net : IadsNetwork)
    (hl : ∀ p ∈ l, TgoWf p.2) (hnn : (nodeNames net).Nodup) :
    (nodeNames (l.foldl rangeInitStep net)).Nodup
      ∧ (l.foldl rangeInitStep net).ground_objects = net.ground_objects := by
  induction l generalizing net with
  | nil => exact ⟨hnn, rfl⟩
  | cons p rest ih =>
    rw [List.foldl_cons]
    have h1 := rangeInitStep_inv net p (hl p (List.mem_cons_self p rest)) hnn
    have h2 := ih (rangeInitStep net p)
      (fun q hq => hl q (List.mem_cons_of_mem p hq)) h1.1
    exact ⟨h2.1, h2.2.trans h1.2⟩

theorem basicFold_inv (l : List (String × TheaterGroundObject)) (net : IadsNetwork)
    (hl : ∀ p ∈ l, TgoWf p.2) (hnn : (nodeNames net).Nodup) :
    (nodeNames (l.foldl basicIadsStep net)).Nodup
      ∧ (l.foldl basicIadsStep net).ground_objects = net.ground_objects := by
  induction l generalizing net with
  | nil => exact ⟨hnn, rfl⟩
  | cons p rest ih =>
    rw [List.foldl_cons]
    have h1 := basicIadsStep_inv net p (hl p (List.mem_cons_self p rest)) hnn
    have h2 := ih (basicIadsStep net p)
      (fun q hq => hl q (List.mem_cons_of_mem p hq)) h1.1
    exact ⟨h2.1, h2.2.trans h1.2⟩

theorem initDispatch_inv (net : IadsNetwork)
    (hreg : RegistryWf net) (hnn : (nodeNames net).Nodup) :
    RegistryWf (initDispatch net) ∧ (nodeNames (initDispatch net)).Nodup := by
  unfold initDispatch
  by_cases hadv : net.advanced_iads = true
  · rw [if_pos hadv]
    by_cases hcfg : net.iads_config.isEmpty = true
    · rw [if_neg (by simp [hcfg])]
      have h := rangeFold_inv net.ground_objects net (fun p hp => (hreg p hp).1) hnn
      refine ⟨?_, h.1⟩
      intro p hp
      have hgo : (initialize_network_from_range net).ground_objects
          = net.ground_objects := h.2
      rw [hgo] at hp
      exact hreg p hp
    · have hne : net.iads_config.isEmpty = false := by
        revert hcfg
        cases net.iads_config.isEmpty <;> simp
      rw [if_pos (by rw [hne]; rfl)]
      have h := configFold_inv (net.iads_config.map (fun p => p.1)) net hreg hnn
      refine ⟨?_, h.1⟩
      intro p hp
      have hgo : (initialize_network_from_config net).ground_objects
          = net.ground_objects := h.2
      rw [hgo] at hp
      exact hreg p hp
  · rw [if_neg hadv]
    exact ⟨hreg, hnn⟩

theorem initialize_network_phase_inv (net : IadsNetwork)
    (gos : List TheaterGroundObject) (hreg : RegistryWf net)
    (hg : ∀ tgo ∈ gos, TgoWf tgo) (hnn : (nodeNames net).Nodup) :
    RegistryWf (initialize_network_phase net gos)
      ∧ (nodeNames (initialize_network_phase net gos)).Nodup := by
  rw [initialize_network_phase_eq]
  have hnn1 : (nodeNames (regExtend net gos)).Nodup := hnn
  exact initDispatch_inv (regExtend net gos) (regExtend_wf net gos hreg hg) hnn1

theorem initialize_network_inv (net : IadsNetwork)
    (gos : List TheaterGroundObject) (hreg : RegistryWf net)
    (hg : ∀ tgo ∈ gos, TgoWf tgo) (hnn : (nodeNames net).Nodup) :
    RegistryWf (initialize_network net gos)
      ∧ (nodeNames (initialize_network net gos)).Nodup := by
  have h1 := initialize_network_phase_inv net gos hreg hg hnn
  by_cases hempty : (initialize_network_phase net gos).nodes.isEmpty = true
  · have heq : initialize_network net gos
        = initialize_basic_iads (initialize_network_phase net gos) := by
      show (if (initialize_network_phase net gos).nodes.isEmpty = true
          then initialize_basic_iads (initialize_network_phase net gos)
          else initialize_network_phase net gos)
        = initialize_basic_iads (initialize_network_phase net gos)
      rw [if_pos hempty]
    rw [heq]
    have h2 := basicFold_inv (initialize_network_phase net gos).ground_objects
      (initialize_network_phase net gos) (fun p hp => (h1.1 p hp).1) h1.2
    refine ⟨?_, h2.1⟩
    intro p hp
    have hgo : (initialize_basic_iads (initialize_network_phase net gos)).ground_objects
        = (initialize_network_phase net gos).ground_objects := h2.2
    rw [hgo] at hp
    exact h1.1 p hp
  · have heq : initialize_network net gos = initialize_network_phase net gos := by
      show (if (initialize_network_phase net gos).nodes.isEmpty = true
          then initialize_basic_iads (initialize_network_phase net gos)
          else initialize_network_phase net gos)
        = initialize_network_phase net gos
      rw [if_neg hempty]
    rw [heq]
    exact h1

theorem runSteps_inv (steps : List NetStep) (net : IadsNetwork)
    (hw : ∀ s ∈ steps, StepWf s) (hreg : RegistryWf net)
    (hnn : (nodeNames net).Nodup) :
    RegistryWf (runSteps net steps) ∧ (nodeNames (runSteps net steps)).Nodup := by
  induction steps generalizing net with
  | nil => exact ⟨hreg, hnn⟩
  | cons s rest ih =>
    have hs := hw s (List.mem_cons_self s rest)
    have h1 : RegistryWf (runStep net s) ∧ (nodeNames (runStep net s)).Nodup := by
      cases s with
      | init gos => exact initialize_network_inv net gos hreg hs hnn
      | update tgo =>
        have h := update_tgo_inv net tgo hs hnn
        refine ⟨?_, h.1⟩
        intro p hp
        have hp2 : p ∈ (update_tgo net tgo).1.ground_objects := hp
        rw [h.2] at hp2
        exact hreg p hp2
    exact ih (runStep net s) (fun q hq => hw q (List.mem_cons_of_mem s hq)) h1.1 h1.2

theorem exTgoA_wf : TgoWf exTgoA := by
  intro g hg
  simp only [exTgoA, List.mem_cons, List.not_mem_nil, or_false] at hg
  subst hg
  rfl

theorem exTgoSamPd_wf : TgoWf exTgoSamPd := by
  intro g hg
  simp only [exTgoSamPd, List.mem_cons, List.not_mem_nil, or_false] at hg
  rcases hg with h | h
  · subst h
    rfl
  · subst h
    rfl

theorem exC1StepsWf :
    ∀ s ∈ [NetStep.init [exTgoA, exTgoSamPd], NetStep.update exTgoSamPd],
      StepWf s := by
  intro s hs
  rcases List.mem_cons.mp hs with h | hs2
  · subst h
    intro tgo htgo
    rcases List.mem_cons.mp htgo with h2 | h2
    · subst h2
      exact exTgoA_wf
    · rcases List.mem_cons.mp h2 with h3 | h3
      · subst h3
        exact exTgoSamPd_wf
      · cases h3
  · rcases List.mem_cons.mp hs2 with h | h
    · subst h
      exact exTgoSamPd_wf
    · cases h

/-- C1 (amended: the uniqueness half holds — at most one node per
installation at any time, over any sequence of initialize/update operations
on well-formed installations; the existence half fails in config mode,
where only configured primaries obtain nodes — see the counterexample):
after any operation sequence from a fresh network, at most one node is
anchored on any installation name. -/
theorem one_node_per_installation (adv : Bool) (cfg : List IadsConfigEntry)
    (steps : List NetStep) (hw : ∀ s ∈ steps, StepWf s) (nm : String) :
    (nodeNames (runSteps (mkIadsNetwork adv cfg) steps)).count nm ≤ 1 := by
  have h0reg : RegistryWf (mkIadsNetwork adv cfg) := by
    intro p hp
    simp [mkIadsNetwork] at hp
  have h0nn : (nodeNames (mkIadsNetwork adv cfg)).Nodup := by
    simp [nodeNames, mkIadsNetwork]
  have h := runSteps_inv steps (mkIadsNetwork adv cfg) hw h0reg h0nn
  exact List.nodup_iff_count_le_one.mp h.2 nm

theorem one_node_per_installation_witness :
    (∀ s ∈ [NetStep.init [exTgoA, exTgoSamPd], NetStep.update exTgoSamPd],
        StepWf s)
      ∧ (nodeNames (runSteps (mkIadsNetwork false [])
          [NetStep.init [exTgoA, exTgoSamPd], NetStep.update exTgoSamPd])).count "S"
        ≤ 1 :=
  ⟨exC1StepsWf, one_node_per_installation false []
    [NetStep.init [exTgoA, exTgoSamPd], NetStep.update exTgoSamPd] exC1StepsWf "S"⟩

/-- C1 counterexample to the existence half: in advanced mode with a config
naming only installation `A`, `initialize` gives installation `S` no node at
all, although `S` has a participating IADS group with a living unit. -/
theorem one_node_per_installation_cex :
    (∃ g ∈ exTgoSamPd.groups,
        g.is_iads = true ∧ g.iads_role.participate = true ∧ 0 < g.alive_units)
      ∧ (nodeNames (initialize_network (mkIadsNetwork true [IadsConfigEntry.bare "A"])
          [exTgoA, exTgoSamPd])).count "S" = 0 := by
  constructor
  · exact ⟨exGroupSam, by decide, by decide, by decide, by decide⟩
  · rfl
